import Mathlib

namespace RunBenchmarks

/-- Text is modelled as a list of characters. -/
abbrev Str := List Char

/-- Character list of a string literal. -/
def strL (s : String) : Str := s.data

/-- Nearest integer to a rational, computed with floor division; `roundQ q = ⌊q + 1/2⌋`. -/
def roundQ (q : ℚ) : ℤ := (2 * q.num + (q.den : ℤ)).fdiv ((2 * q.den : ℕ) : ℤ)

/-- Python whitespace test for the characters relevant to `str.rstrip` / `str.strip`. -/
def isPyWS (c : Char) : Bool := c == ' ' || c == '\t' || c == '\n' || c == '\r'

/-- Model of Python `str.rstrip()`. -/
def pyRstrip (s : Str) : Str := (s.reverse.dropWhile isPyWS).reverse

/-- Model of Python `str.strip()`. -/
def pyStrip (s : Str) : Str := (pyRstrip s).dropWhile isPyWS

/-- Model of Python `str.split(sep)` for a one-character separator: splits on every
occurrence of `c`, keeping empty parts. -/
def splitOnCh (c : Char) : Str → List Str
  | [] => [[]]
  | d :: ds =>
    if d = c then [] :: splitOnCh c ds
    else
      match splitOnCh c ds with
      | t :: ts => (d :: t) :: ts
      | [] => [[d]]

/-- Model of Python `sep.join(parts)` for a one-character separator. -/
def joinOnCh (c : Char) : List Str → Str
  | [] => []
  | [t] => t
  | t :: ts => t ++ c :: joinOnCh c ts

/-- Model of Python `str.split(", ")`, the separator produced by `str` on lists/tuples. -/
def splitCS : Str → List Str
  | [] => [[]]
  | [d] => [[d]]
  | d :: e :: ds =>
    if d = ',' ∧ e = ' ' then [] :: splitCS ds
    else
      match splitCS (e :: ds) with
      | t :: ts => (d :: t) :: ts
      | [] => [[d]]

/-- Fuel-driven worker for `splitOnStr`. -/
def splitOnStrAux (pat : Str) : ℕ → Str → List Str
  | 0, s => [s]
  | fuel + 1, s =>
    if pat ≠ [] ∧ pat.isPrefixOf s then [] :: splitOnStrAux pat fuel (s.drop pat.length)
    else
      match s with
      | [] => [[]]
      | d :: ds =>
        match splitOnStrAux pat fuel ds with
        | t :: ts => (d :: t) :: ts
        | [] => [[d]]

/-- Model of Python `str.split(pat)` for a multi-character separator (left-to-right,
non-overlapping). -/
def splitOnStr (pat s : Str) : List Str := splitOnStrAux pat (s.length + 1) s

/-- Option-valued map over a list which fails as soon as `f` fails. -/
def mapMO {α β : Type} (f : α → Option β) : List α → Option (List β)
  | [] => some []
  | x :: xs =>
    match f x, mapMO f xs with
    | some y, some ys => some (y :: ys)
    | _, _ => none

/-- Decimal digit to character; total with a junk default never reached for digits. -/
def digitChar (d : ℕ) : Char :=
  if d = 0 then '0' else if d = 1 then '1' else if d = 2 then '2' else if d = 3 then '3'
  else if d = 4 then '4' else if d = 5 then '5' else if d = 6 then '6' else if d = 7 then '7'
  else if d = 8 then '8' else if d = 9 then '9' else '*'

/-- Character to decimal digit, `none` on anything that is not `0`–`9`. -/
def charDigit (c : Char) : Option ℕ :=
  if c = '0' then some 0 else if c = '1' then some 1 else if c = '2' then some 2
  else if c = '3' then some 3 else if c = '4' then some 4 else if c = '5' then some 5
  else if c = '6' then some 6 else if c = '7' then some 7 else if c = '8' then some 8
  else if c = '9' then some 9 else none

/-- Fuel-driven big-endian decimal digits of a natural number (empty for 0). -/
def natDigitsAux : ℕ → ℕ → List ℕ
  | 0, _ => []
  | fuel + 1, n => if n = 0 then [] else natDigitsAux fuel (n / 10) ++ [n % 10]

/-- Big-endian decimal digits of a natural number (empty for 0). -/
def natDigits (n : ℕ) : List ℕ := natDigitsAux n n

/-- Value of a big-endian digit list. -/
def foldDigits (ds : List ℕ) : ℕ := ds.foldl (fun a d => a * 10 + d) 0

/-- Model of Python `str(n)` for a non-negative integer. -/
def reprNat (n : ℕ) : Str := if n = 0 then ['0'] else (natDigits n).map digitChar

/-- Model of Python `int(s)` restricted to unsigned decimal strings. -/
def parseNatStr (s : Str) : Option ℕ :=
  if s = [] then none else (mapMO charDigit s).map foldDigits

/-- Model of Python `str(n)` for an integer. -/
def reprInt (n : ℤ) : Str := if n < 0 then '-' :: reprNat n.natAbs else reprNat n.natAbs

/-- Model of Python `int(s)` for signed decimal strings. -/
def parseIntStr (s : Str) : Option ℤ :=
  if s.head? = some '-' then (parseNatStr s.tail).map (fun m => -(m : ℤ))
  else (parseNatStr s).map (fun m => (m : ℤ))

/-- Digits of `f` padded on the left with zeros to width `k`. -/
def padDigits (k f : ℕ) : List ℕ := List.replicate (k - (natDigits f).length) 0 ++ natDigits f

/-- Value of the Python expression `float("%.3f" % q)`: `q` rounded to 3 decimals. -/
def fmt3 (q : ℚ) : ℚ := (roundQ (q * 1000) : ℚ) / 1000

/-- Smallest `k ≤ 40` with `d ∣ 10^k`, the decimal exponent needed to express a
denominator-`d` rational exactly. -/
def denPow10 (d : ℕ) : Option ℕ := (List.range 41).find? (fun k => 10 ^ k % d == 0)

/-- Decimal text of the non-negative value `n / 10^k`, with at least one fractional
digit, as Python `str` prints a float whose shortest exact form has `k` decimals. -/
def reprUFloat (n k : ℕ) : Str :=
  if k = 0 then reprNat n ++ strL ".0"
  else reprNat (n / 10 ^ k) ++ '.' :: (padDigits k (n % 10 ^ k)).map digitChar

/-- Text of the Python expression `"%.3f" % q`: sign, integer part, dot, exactly
three fractional digits. -/
def reprFmt3 (q : ℚ) : Str :=
  (if roundQ (q * 1000) < 0 then ['-'] else []) ++ reprUFloat (roundQ (q * 1000)).natAbs 3

/-- Model of Python `str(q)` for a float holding the exact rational `q`: minimal
exact decimal text (falls back to `"0.0"` on denominators no float can carry). -/
def reprFloatQ (q : ℚ) : Str :=
  match denPow10 q.den with
  | some k => (if q < 0 then ['-'] else []) ++ reprUFloat (q.num.natAbs * (10 ^ k / q.den)) k
  | none => strL "0.0"

/-- Decode an unsigned decimal literal (`"2"`, `"2.0"`, `"0.026"`) to its exact value. -/
def parseUFloat (s : Str) : Option ℚ :=
  let parts := splitOnCh '.' s
  if parts.length = 1 then (parseNatStr (parts.getD 0 [])).map (fun i => (i : ℚ))
  else if parts.length = 2 then
    match parseNatStr (parts.getD 0 []), mapMO charDigit (parts.getD 1 []) with
    | some i, some ds =>
      some ((i : ℚ) + (foldDigits ds : ℚ) / 10 ^ (parts.getD 1 []).length)
    | _, _ => none
  else none

/-- Decode a signed decimal literal to its exact value. -/
def parseFloatQ (s : Str) : Option ℚ :=
  if s.head? = some '-' then (parseUFloat s.tail).map (fun q => -q)
  else parseUFloat s

/-- Model of Python `statistics.mean` on exact rationals (junk 0 on `[]`; callers
guard emptiness with the `StatisticsError` they model). -/
def pymean (l : List ℚ) : ℚ := l.sum / l.length

/-- Mean of a list of integers, as `statistics.mean` computes it. -/
def pymeanZ (l : List ℤ) : ℚ := pymean (l.map (fun z => (z : ℚ)))

/-- Python exceptions the modelled code can raise. -/
inductive Err where
  | benchmarkNotSupported
  | assertionError
  | statisticsError
  | indexError
  | nameError
  | valueError
  | typeError
  | zeroDivisionError
deriving DecidableEq

/-- Python values appearing in the `parameters` list of `run_benchmark`. -/
inductive PyVal where
  | vBool (b : Bool)
  | vInt (n : ℤ)
  | vFloat (q : ℚ)
deriving DecidableEq

/-- Model of Python `str` on a `parameters` entry. -/
def reprPyVal : PyVal → Str
  | .vBool true => strL "True"
  | .vBool false => strL "False"
  | .vInt n => reprInt n
  | .vFloat q => reprFloatQ q

/-- Model of Python `==` between a bool and a `parameters` entry (Python compares
`True == 1` as true). -/
def pyEqBool (b : Bool) : PyVal → Bool
  | .vBool c => b == c
  | .vInt n => if b then n == 1 else n == 0
  | .vFloat q => if b then q == 1 else q == 0

/-- Model of Python `", ".join` as used by `str` on lists and tuples. -/
def joinCS : List Str → Str
  | [] => []
  | [t] => t
  | t :: ts => t ++ ',' :: ' ' :: joinCS ts

/-- Model of Python `str` on a list of floats. -/
def reprFloatList (l : List ℚ) : Str := '[' :: joinCS (l.map reprFloatQ) ++ [']']

/-- Model of Python `str` on a list of ints. -/
def reprIntList (l : List ℤ) : Str := '[' :: joinCS (l.map reprInt) ++ [']']

/-- Model of Python `str` on the `parameters` list. -/
def reprPyValList (l : List PyVal) : Str := '[' :: joinCS (l.map reprPyVal) ++ [']']

/-- Python indexing `l[i]` for a non-negative index. -/
def pyIndexNat {α : Type} (l : List α) (i : ℕ) : Except Err α :=
  match l.get? i with
  | some a => .ok a
  | none => .error .indexError

/-- Python indexing `l[i]` for a possibly negative index. -/
def pyIndexI {α : Type} (l : List α) (i : ℤ) : Except Err α :=
  if 0 ≤ i then pyIndexNat l i.toNat
  else if i.natAbs ≤ l.length then pyIndexNat l (l.length - i.natAbs)
  else .error .indexError

/-- Except-valued map over a list which fails at the first failing element. -/
def mapME {α β : Type} (f : α → Except Err β) : List α → Except Err (List β)
  | [] => .ok []
  | x :: xs =>
    match f x, mapME f xs with
    | .ok y, .ok ys => .ok (y :: ys)
    | .error e, _ => .error e
    | _, .error e => .error e

/-- Result of `ast.literal_eval` on the numeric literals the reports contain: either a
bare number or a sequence (list/tuple) of numbers. -/
inductive PyLit where
  | num (q : ℚ)
  | seq (qs : List ℚ)
deriving DecidableEq

instance {ε α : Type} [DecidableEq ε] [DecidableEq α] : DecidableEq (Except ε α) :=
  fun a b =>
    match a, b with
    | .ok x, .ok y =>
      if h : x = y then .isTrue (by rw [h]) else .isFalse (by simp [h])
    | .error e, .error f =>
      if h : e = f then .isTrue (by rw [h]) else .isFalse (by simp [h])
    | .ok _, .error _ => .isFalse (by simp)
    | .error _, .ok _ => .isFalse (by simp)

/-- Model of `ast.literal_eval` on the trailing text of a report line: a bracketed
list, a bare comma-separated tuple, or a single number. -/
def pyLiteralEval (s : Str) : Except Err PyLit :=
  if s.head? = some '[' then
    if s.tail.getLast? = some ']' then
      if s.tail.dropLast = [] then .ok (.seq [])
      else
        match mapMO parseFloatQ (splitCS s.tail.dropLast) with
        | some qs => .ok (.seq qs)
        | none => .error .valueError
    else .error .valueError
  else
    match splitCS s with
    | [single] =>
      match parseFloatQ single with
      | some q => .ok (.num q)
      | none => .error .valueError
    | parts =>
      match mapMO parseFloatQ parts with
      | some qs => .ok (.seq qs)
      | none => .error .valueError

/-- Python subscription `lit[i]`: a `TypeError` on a bare number, list indexing on a
sequence. -/
def pyLitIndex (v : PyLit) (i : ℕ) : Except Err ℚ :=
  match v with
  | .num _ => .error .typeError
  | .seq qs => pyIndexNat qs i

/-- Model of Python `float(s)` on extracted report text (strips whitespace, then
decodes a signed decimal literal). -/
def pyFloatOfStr (s : Str) : Except Err ℚ :=
  match parseFloatQ (pyStrip s) with
  | some q => .ok q
  | none => .error .valueError

/-- Whether an `Except` value is a success. -/
def exOk {ε α : Type} : Except ε α → Bool
  | .ok _ => true
  | .error _ => false

/-- The 9-field statistics tuple returned by the instance generators (`stats[0]` to
`stats[8]`; `stats[4]`, `stats[5]`, `stats[7]`, `stats[8]` are pairs of a call count
and the list of per-call times). -/
structure Stats where
  antichain_size : ℤ
  nbr_payoffs_losing : ℤ
  nbr_payoffs_realizable : ℤ
  ce_antichain_size : ℤ
  ce_calls_exists : ℤ × List ℚ
  ce_calls_dominated : ℤ × List ℚ
  ao_antichain_size : ℤ
  ao_calls1 : ℤ × List ℚ
  ao_calls2 : ℤ × List ℚ
deriving DecidableEq

/-- External collaborators of `run_benchmark`, indexed by the swept value `i` and the
trial number `j`: the instance generators (statistics tuple and objective count) and
the two verification algorithms (boolean answers and elapsed times on the three
clocks, process / perf_counter / wall). -/
structure Env where
  stats : ℤ → ℕ → Stats
  nbrObjectives : ℤ → ℕ → ℤ
  ceAnswer : ℤ → ℕ → Bool
  aoAnswer : ℤ → ℕ → Bool
  ceElapsed : ℤ → ℕ → ℚ × ℚ × ℚ
  aoElapsed : ℤ → ℕ → ℚ × ℚ × ℚ

/-- The per-sweep-value accumulator lists of `run_benchmark`, one field per Python
list created at the top of the outer loop. -/
structure Acc where
  temp_antichain_sizes : List ℤ := []
  temp_nbr_payoffs_losing_player_0 : List ℤ := []
  temp_nbr_payoffs_realizable : List ℤ := []
  temp_counterexample_antichain_sizes : List ℤ := []
  temp_counterexample_nbr_calls : List ℤ := []
  temp_counterexample_nbr_calls_exists : List ℤ := []
  temp_counterexample_mean_time_calls_exists : List ℚ := []
  temp_counterexample_nbr_calls_dominated : List ℤ := []
  temp_counterexample_mean_time_calls_dominated : List ℚ := []
  temp_antichain_optimization_antichain_sizes : List ℤ := []
  temp_antichain_optimization_nbr_calls : List ℤ := []
  temp_antichain_optimization_nbr_calls1 : List ℤ := []
  temp_antichain_optimization_mean_time_calls1 : List ℚ := []
  temp_antichain_optimization_nbr_calls2 : List ℤ := []
  temp_antichain_optimization_mean_time_calls2 : List ℚ := []
  counterexample_times_process : List ℚ := []
  counterexample_times_perf_counter : List ℚ := []
  counterexample_times : List ℚ := []
  antichain_optimization_times_process : List ℚ := []
  antichain_optimization_times_perf_counter : List ℚ := []
  antichain_optimization_times : List ℚ := []
deriving DecidableEq

/-- The fresh accumulator created at the start of each sweep-value iteration. -/
def emptyAcc : Acc := {}

/-- The expected answer `gen_positivity` of a trial: `parameters[4]` for the random
benchmark, `parameters[0]` for the intersection benchmarks (the generator call itself
reads the same indices first, so a too-short list raises `IndexError` either way), and
`BenchmarkNotSupportedError` for any other benchmark type. -/
def genPos (bt : Str) (params : List PyVal) : Except Err PyVal :=
  if bt = strL "random" then
    match params.get? 4 with
    | some v => .ok v
    | none => .error .indexError
  else if bt = strL "intersection_vertices" then
    match params.get? 0 with
    | some v => .ok v
    | none => .error .indexError
  else if bt = strL "intersection_objectives" then
    match params.get? 0 with
    | some v => .ok v
    | none => .error .indexError
  else .error .benchmarkNotSupported

/-- The five statistics appends of lines 118–123 of `run_benchmark` that precede the
first `statistics.mean` call. -/
def appendStats1 (st : Stats) (acc : Acc) : Acc :=
  { acc with
    temp_antichain_sizes := acc.temp_antichain_sizes ++ [st.antichain_size],
    temp_nbr_payoffs_losing_player_0 :=
      acc.temp_nbr_payoffs_losing_player_0 ++ [st.nbr_payoffs_losing],
    temp_nbr_payoffs_realizable :=
      acc.temp_nbr_payoffs_realizable ++ [st.nbr_payoffs_realizable],
    temp_counterexample_antichain_sizes :=
      acc.temp_counterexample_antichain_sizes ++ [st.ce_antichain_size],
    temp_counterexample_nbr_calls_exists :=
      acc.temp_counterexample_nbr_calls_exists ++ [st.ce_calls_exists.1] }

/-- Appends of lines 124–125: the mean `exists` call time and the `dominated` count. -/
def appendStats2 (st : Stats) (acc : Acc) : Acc :=
  { acc with
    temp_counterexample_mean_time_calls_exists :=
      acc.temp_counterexample_mean_time_calls_exists ++ [fmt3 (pymean st.ce_calls_exists.2)],
    temp_counterexample_nbr_calls_dominated :=
      acc.temp_counterexample_nbr_calls_dominated ++ [st.ce_calls_dominated.1] }

/-- Appends of lines 126–131: mean `dominated` time, total CE calls, AO antichain
size and AO `call1` count. -/
def appendStats3 (st : Stats) (acc : Acc) : Acc :=
  { acc with
    temp_counterexample_mean_time_calls_dominated :=
      acc.temp_counterexample_mean_time_calls_dominated ++
        [fmt3 (pymean st.ce_calls_dominated.2)],
    temp_counterexample_nbr_calls :=
      acc.temp_counterexample_nbr_calls ++ [st.ce_calls_exists.1 + st.ce_calls_dominated.1],
    temp_antichain_optimization_antichain_sizes :=
      acc.temp_antichain_optimization_antichain_sizes ++ [st.ao_antichain_size],
    temp_antichain_optimization_nbr_calls1 :=
      acc.temp_antichain_optimization_nbr_calls1 ++ [st.ao_calls1.1] }

/-- Appends of lines 131–132: mean `call1` time and the `call2` count. -/
def appendStats4 (st : Stats) (acc : Acc) : Acc :=
  { acc with
    temp_antichain_optimization_mean_time_calls1 :=
      acc.temp_antichain_optimization_mean_time_calls1 ++ [fmt3 (pymean st.ao_calls1.2)],
    temp_antichain_optimization_nbr_calls2 :=
      acc.temp_antichain_optimization_nbr_calls2 ++ [st.ao_calls2.1] }

/-- Appends of lines 133–134: mean `call2` time and the AO total call count. -/
def appendStats5 (st : Stats) (acc : Acc) : Acc :=
  { acc with
    temp_antichain_optimization_mean_time_calls2 :=
      acc.temp_antichain_optimization_mean_time_calls2 ++ [fmt3 (pymean st.ao_calls2.2)],
    temp_antichain_optimization_nbr_calls :=
      acc.temp_antichain_optimization_nbr_calls ++ [st.ao_calls1.1 + st.ao_calls2.1] }

/-- The three CE timing appends of lines 150–152, each value already rounded to 3
decimals at measurement time. -/
def appendTimesCE (t : ℚ × ℚ × ℚ) (acc : Acc) : Acc :=
  { acc with
    counterexample_times_process := acc.counterexample_times_process ++ [fmt3 t.1],
    counterexample_times_perf_counter :=
      acc.counterexample_times_perf_counter ++ [fmt3 t.2.1],
    counterexample_times := acc.counterexample_times ++ [fmt3 t.2.2] }

/-- The three AO timing appends of lines 168–170. -/
def appendTimesAO (t : ℚ × ℚ × ℚ) (acc : Acc) : Acc :=
  { acc with
    antichain_optimization_times_process :=
      acc.antichain_optimization_times_process ++ [fmt3 t.1],
    antichain_optimization_times_perf_counter :=
      acc.antichain_optimization_times_perf_counter ++ [fmt3 t.2.1],
    antichain_optimization_times := acc.antichain_optimization_times ++ [fmt3 t.2.2] }

/-- One trial of the inner loop of `run_benchmark` (lines 95–170): instance
generation and positivity extraction, the statistics appends with their
`statistics.mean` failure points, the CE run with its consistency assert and timing
appends, then the AO run with its assert and timing appends. Returns the mutated
accumulator, the updated `nbr` binding, and the exception if one was raised. -/
def runTrial (env : Env) (bt : Str) (params : List PyVal) (i : ℤ) (j : ℕ)
    (acc : Acc) (nb : Option ℤ) : Acc × Option ℤ × Option Err :=
  match genPos bt params with
  | .error e => (acc, nb, some e)
  | .ok gp =>
    let st := env.stats i j
    let nb1 := some (env.nbrObjectives i j)
    let a1 := appendStats1 st acc
    if st.ce_calls_exists.2 = [] then (a1, nb1, some .statisticsError) else
    let a2 := appendStats2 st a1
    if st.ce_calls_dominated.2 = [] then (a2, nb1, some .statisticsError) else
    let a3 := appendStats3 st a2
    if st.ao_calls1.2 = [] then (a3, nb1, some .statisticsError) else
    let a4 := appendStats4 st a3
    if st.ao_calls2.2 = [] then (a4, nb1, some .statisticsError) else
    let a5 := appendStats5 st a4
    if pyEqBool (env.ceAnswer i j) gp then
      let a6 := appendTimesCE (env.ceElapsed i j) a5
      if pyEqBool (env.aoAnswer i j) gp then
        (appendTimesAO (env.aoElapsed i j) a6, nb1, none)
      else (a6, nb1, some .assertionError)
    else (a5, nb1, some .assertionError)

/-- The inner loop `for j in range(1, nbr_points + 1)`: runs `count` trials starting
at trial number `j`, stopping at the first exception. -/
def runTrials (env : Env) (bt : Str) (params : List PyVal) (i : ℤ) :
    ℕ → ℕ → Acc → Option ℤ → Acc × Option ℤ × Option Err
  | 0, _, acc, nb => (acc, nb, none)
  | count + 1, j, acc, nb =>
    match runTrial env bt params i j acc nb with
    | (acc1, nb1, some e) => (acc1, nb1, some e)
    | (acc1, nb1, none) => runTrials env bt params i (count) (j + 1) acc1 nb1

/-- Sequential file writes: concatenated text of the chunks up to the first failing
one, plus the exception if any (a failing chunk writes nothing, its argument string
being built before `f.write` runs). -/
def catE : List (Except Err Str) → Str × Option Err
  | [] => ([], none)
  | .error e :: _ => ([], some e)
  | .ok c :: rest =>
    match catE rest with
    | (t, e) => (c ++ t, e)

/-- A report line holding a list of ints, newline-terminated. -/
def lineZ (lbl : String) (l : List ℤ) : Str := strL lbl ++ reprIntList l ++ ['\n']

/-- A report line holding a list of floats, newline-terminated. -/
def lineQ (lbl : String) (l : List ℚ) : Str := strL lbl ++ reprFloatList l ++ ['\n']

/-- One `f.write` chunk of the form `label + "%.3f" % statistics.mean(l) + tail` for
a float series: `StatisticsError` on an empty series, before anything is written. -/
def emitMeanQ (lbl : String) (l : List ℚ) (tail : String) : Except Err Str :=
  if l = [] then .error .statisticsError
  else .ok (strL lbl ++ reprFmt3 (pymean l) ++ strL tail)

/-- The same chunk for an integer series. -/
def emitMeanZ (lbl : String) (l : List ℤ) (tail : String) : Except Err Str :=
  if l = [] then .error .statisticsError
  else .ok (strL lbl ++ reprFmt3 (pymeanZ l) ++ strL tail)

/-- The block appended to the report file for one sweep value (lines 196–261 of
`run_benchmark`): 24 raw-series lines, the two 3-chunk mean-running-time lines, 15
scalar-mean lines, and three bare newline writes. Returns the text actually written
and the exception, if any, that interrupted the writes (`NameError` when `nbr` was
never bound, `StatisticsError` on an empty series). -/
def writeBlock (i : ℤ) (params : List PyVal) (nb : Option ℤ) (acc : Acc) :
    Str × Option Err :=
  catE
    [.ok (strL "Variable value used " ++ reprInt i ++ ['\n']),
     .ok (strL "Parameters " ++ reprPyValList params ++ ['\n']),
     (match nb with
      | some nbr => .ok (strL "Number of objectives " ++ reprInt nbr ++ ['\n'])
      | none => .error .nameError),
     .ok (lineZ "Antichain sizes " acc.temp_antichain_sizes),
     .ok (lineZ "Number of payoffs losing " acc.temp_nbr_payoffs_losing_player_0),
     .ok (lineZ "Number of payoffs realizable " acc.temp_nbr_payoffs_realizable),
     .ok (lineZ "CE antichain sizes " acc.temp_counterexample_antichain_sizes),
     .ok (lineZ "CE exists calls " acc.temp_counterexample_nbr_calls_exists),
     .ok (lineQ "CE exists calls times " acc.temp_counterexample_mean_time_calls_exists),
     .ok (lineZ "CE dominated calls " acc.temp_counterexample_nbr_calls_dominated),
     .ok (lineQ "CE dominated calls times "
        acc.temp_counterexample_mean_time_calls_dominated),
     .ok (lineZ "CE total nbr calls " acc.temp_counterexample_nbr_calls),
     .ok (lineQ "CE times process " acc.counterexample_times_process),
     .ok (lineQ "CE times perf " acc.counterexample_times_perf_counter),
     .ok (lineQ "CE times " acc.counterexample_times),
     .ok (lineZ "AO antichain sizes " acc.temp_antichain_optimization_antichain_sizes),
     .ok (lineZ "AO call1 calls " acc.temp_antichain_optimization_nbr_calls1),
     .ok (lineQ "AO call1 calls times " acc.temp_antichain_optimization_mean_time_calls1),
     .ok (lineZ "AO call2 calls " acc.temp_antichain_optimization_nbr_calls2),
     .ok (lineQ "AO call2 calls times " acc.temp_antichain_optimization_mean_time_calls2),
     .ok (lineZ "AO total nbr calls " acc.temp_antichain_optimization_nbr_calls),
     .ok (lineQ "AO times process " acc.antichain_optimization_times_process),
     .ok (lineQ "AO times perf " acc.antichain_optimization_times_perf_counter),
     .ok (lineQ "AO times " acc.antichain_optimization_times),
     emitMeanQ "Mean running time CE " acc.counterexample_times_process ", ",
     emitMeanQ "" acc.counterexample_times_perf_counter ", ",
     emitMeanQ "" acc.counterexample_times "\n",
     emitMeanQ "Mean running time AO " acc.antichain_optimization_times_process ", ",
     emitMeanQ "" acc.antichain_optimization_times_perf_counter ", ",
     emitMeanQ "" acc.antichain_optimization_times "\n",
     emitMeanZ "Mean antichain size " acc.temp_antichain_sizes "\n",
     emitMeanZ "Mean number losing payoffs " acc.temp_nbr_payoffs_losing_player_0 "\n",
     emitMeanZ "Mean number realizable payoffs " acc.temp_nbr_payoffs_realizable "\n",
     emitMeanZ "CE mean antichain size " acc.temp_counterexample_antichain_sizes "\n",
     emitMeanZ "CE mean nbr exists calls " acc.temp_counterexample_nbr_calls_exists "\n",
     emitMeanQ "CE mean exists time "
       acc.temp_counterexample_mean_time_calls_exists "\n",
     emitMeanZ "CE mean nbr dominated calls "
       acc.temp_counterexample_nbr_calls_dominated "\n",
     emitMeanQ "CE mean dominated time "
       acc.temp_counterexample_mean_time_calls_dominated "\n",
     emitMeanZ "CE mean total nbr calls " acc.temp_counterexample_nbr_calls "\n",
     emitMeanZ "AO mean antichain size "
       acc.temp_antichain_optimization_antichain_sizes "\n",
     emitMeanZ "AO mean nbr call1 calls " acc.temp_antichain_optimization_nbr_calls1 "\n",
     emitMeanQ "AO mean call1 time "
       acc.temp_antichain_optimization_mean_time_calls1 "\n",
     emitMeanZ "AO mean nbr call2 calls " acc.temp_antichain_optimization_nbr_calls2 "\n",
     emitMeanQ "AO mean call2 time "
       acc.temp_antichain_optimization_mean_time_calls2 "\n",
     emitMeanZ "AO mean total nbr calls " acc.temp_antichain_optimization_nbr_calls "\n",
     .ok ['\n'],
     .ok ['\n'],
     .ok ['\n']]

/-- One sweep-value iteration of the outer loop: the N trials, then, when no trial
raised, the report block append. Returns the text appended for this value, the
updated `nbr` binding, and the exception if one was raised. -/
def runValue (env : Env) (bt : Str) (params : List PyVal) (N : ℕ) (i : ℤ)
    (nb : Option ℤ) : Str × Option ℤ × Option Err :=
  match runTrials env bt params i N 1 emptyAcc nb with
  | (_, nb1, some e) => ([], nb1, some e)
  | (acc, nb1, none) =>
    match writeBlock i params nb1 acc with
    | (t, e) => (t, nb1, e)

/-- The outer loop of `run_benchmark` over the swept values, stopping at the first
exception; the text already appended to the report file is kept. -/
def runBenchmarkAux (env : Env) (bt : Str) (params : List PyVal) (N : ℕ) :
    List ℤ → Option ℤ → Str × Option Err
  | [], _ => ([], none)
  | i :: rest, nb =>
    match runValue env bt params N i nb with
    | (t, _, some e) => (t, some e)
    | (t, nb1, none) =>
      match runBenchmarkAux env bt params N rest nb1 with
      | (t1, e1) => (t ++ t1, e1)

/-- Length of Python `range(start, stop, step)`. -/
def pyRangeLen (start stop step : ℤ) : ℕ :=
  if 0 < step then ((stop - start).toNat + (step.toNat - 1)) / step.toNat
  else if step < 0 then ((start - stop).toNat + ((-step).toNat - 1)) / (-step).toNat
  else 0

/-- Model of Python `list(range(start, stop, step))` for a nonzero step. -/
def pyRange (start stop step : ℤ) : List ℤ :=
  (List.range (pyRangeLen start stop step)).map (fun k => start + step * k)

/-- Model of `run_benchmark(benchmark_type, save_file, parameters, nbr_points,
range_start, range_end, range_step)`: the text this call appends to `save_file`, and
the exception raised, if any (`ValueError` for a zero step, from `range`). -/
def runBenchmark (bt : Str) (params : List PyVal) (N : ℕ)
    (start stop step : ℤ) (env : Env) : Str × Option Err :=
  if step = 0 then ([], some .valueError)
  else runBenchmarkAux env bt params N (pyRange start stop step) none

/-- The lines a Python `for line in file` loop yields from text `t` (without their
trailing newlines, which the parser's `rstrip` drops anyway). -/
def fileLines (t : Str) : List Str :=
  match t with
  | [] => []
  | _ =>
    if t.getLast? = some '\n' then (splitOnCh '\n' t).dropLast
    else splitOnCh '\n' t

/-- Number of consecutive newline characters a text ends with; a newline-terminated
text ending in `k+1` newlines ends with `k` blank lines. -/
def trailingNLCount (t : Str) : ℕ := (t.reverse.takeWhile (fun c => c == '\n')).length

/-- The running output lists of `parse_results`. -/
structure ScanSt where
  x : List ℤ := []
  y_ce : List ℚ := []
  y_ao : List ℚ := []
  mean_y_ce : List ℚ := []
  mean_y_ao : List ℚ := []
deriving DecidableEq

/-- Python's short-circuit label test `line[0] == l0 and line[1] == l1 and ...`:
`ok false` at the first mismatching token, `IndexError` when a token to compare is
missing, `ok true` when the whole label matches. -/
def lblMatch : List Str → List Str → Except Err Bool
  | _, [] => .ok true
  | [], _ :: _ => .error .indexError
  | t :: ts, l :: ls => if t = l then lblMatch ts ls else .ok false

/-- The x-value appends done for one `Variable value used` line (lines 306–312 of
`parse_results`): per trial, the three independent sweep-kind tests, appending the
raw value for vertex and random sweeps and `2 + value * 2` for objective sweeps. -/
def variableAppends (bt : Str) (N : ℕ) (v : ℤ) : List ℤ :=
  (List.range N).foldl (fun acc _ =>
    acc ++ (if bt = strL "intersection_vertices" then [v] else [])
        ++ (if bt = strL "intersection_objectives" then [2 + v * 2] else [])
        ++ (if bt = strL "random" then [v] else [])) []

/-- Processing of a single report line by `parse_results` (lines 301–334): tokenize
on spaces after `rstrip`, then run the four label tests in order, extending the
matching series. -/
def scanLine (bt : Str) (N : ℕ) (st : ScanSt) (line : Str) : Except Err ScanSt := do
  let toks := splitOnCh ' ' (pyRstrip line)
  let vvu ← lblMatch toks [strL "Variable", strL "value", strL "used"]
  let st ←
    if vvu then do
      let tx ← pyIndexNat toks 3
      match parseIntStr tx with
      | some v => pure { st with x := st.x ++ variableAppends bt N v }
      | none => throw Err.valueError
    else pure st
  let ctp ← lblMatch toks [strL "CE", strL "times", strL "process"]
  let st ←
    if ctp then do
      let pl ← pyLiteralEval (joinOnCh ' ' (toks.drop 3))
      let vals ← mapME (fun k => pyLitIndex pl k) (List.range N)
      pure { st with y_ce := st.y_ce ++ vals }
    else pure st
  let atp ← lblMatch toks [strL "AO", strL "times", strL "process"]
  let st ←
    if atp then do
      let pl ← pyLiteralEval (joinOnCh ' ' (toks.drop 3))
      let vals ← mapME (fun k => pyLitIndex pl k) (List.range N)
      pure { st with y_ao := st.y_ao ++ vals }
    else pure st
  if bt = strL "random" then do
    let mce ← lblMatch toks [strL "Mean", strL "running", strL "time", strL "CE"]
    let st ←
      if mce then do
        let pl ← pyLiteralEval (joinOnCh ' ' (toks.drop 4))
        let vals ← mapME (fun _ => pyLitIndex pl 0) (List.range N)
        pure { st with mean_y_ce := st.mean_y_ce ++ vals }
      else pure st
    let mao ← lblMatch toks [strL "Mean", strL "running", strL "time", strL "AO"]
    if mao then do
      let pl ← pyLiteralEval (joinOnCh ' ' (toks.drop 4))
      let vals ← mapME (fun _ => pyLitIndex pl 0) (List.range N)
      pure { st with mean_y_ao := st.mean_y_ao ++ vals }
    else pure st
  else pure st

/-- The scanning loop of `parse_results` over all report lines. -/
def scanLines (bt : Str) (N : ℕ) : List Str → ScanSt → Except Err ScanSt
  | [], st => .ok st
  | l :: ls, st =>
    match scanLine bt N st l with
    | .ok st1 => scanLines bt N ls st1
    | .error e => .error e

/-- Sequential dataset-line writes: lines written up to the first failing row, plus
the exception if any. -/
def catLinesE : List (Except Err Str) → List Str × Option Err
  | [] => ([], none)
  | .error e :: _ => ([], some e)
  | .ok l :: rest =>
    match catLinesE rest with
    | (ls, e) => (l :: ls, e)

/-- The 3-column dataset rows `x[i] y_ce[i] y_ao[i]` written by the intersection
branches of `parse_results` (indexing raises when a y-series is shorter than x). -/
def rowChunks3 (st : ScanSt) : List (Except Err Str) :=
  (List.range st.x.length).map (fun i => do
    let xv ← pyIndexNat st.x i
    let cv ← pyIndexNat st.y_ce i
    let av ← pyIndexNat st.y_ao i
    pure (reprInt xv ++ ' ' :: reprFloatQ cv ++ ' ' :: reprFloatQ av))

/-- The 5-column dataset rows written by the random branch of `parse_results`. -/
def rowChunks5 (st : ScanSt) : List (Except Err Str) :=
  (List.range st.x.length).map (fun i => do
    let xv ← pyIndexNat st.x i
    let cv ← pyIndexNat st.y_ce i
    let av ← pyIndexNat st.y_ao i
    let mc ← pyIndexNat st.mean_y_ce i
    let ma ← pyIndexNat st.mean_y_ao i
    pure (reprInt xv ++ ' ' :: reprFloatQ cv ++ ' ' :: reprFloatQ av ++
      ' ' :: reprFloatQ mc ++ ' ' :: reprFloatQ ma))

/-- Model of `parse_results(file_name, benchmark_type, nbr_points, save_file)`: the
lines appended to the `.dat` file and the exception raised, if any. -/
def parseResults (reportLines : List Str) (bt : Str) (N : ℕ) :
    List Str × Option Err :=
  match scanLines bt N reportLines {} with
  | .error e => ([], some e)
  | .ok st =>
    if bt = strL "intersection_vertices" then
      match catLinesE (rowChunks3 st) with
      | (rows, e) => (strL "nbr_vertices CE_time AO_time" :: rows, e)
    else if bt = strL "intersection_objectives" then
      match catLinesE (rowChunks3 st) with
      | (rows, e) => (strL "nbr_objectives CE_time AO_time" :: rows, e)
    else if bt = strL "random" then
      match catLinesE (rowChunks5 st) with
      | (rows, e) =>
        (strL "nbr_objectives CE_time AO_time mean_CE_time mean_AO_time" :: rows, e)
    else ([], none)

/-- The label scan of `generate_tables` for one pattern: every line that `pattern`
splits in exactly two parts contributes the text after the pattern, in file order. -/
def extractSeries (lines : List Str) (pat : Str) : List Str :=
  lines.foldl (fun acc l =>
    let parts := splitOnStr pat (pyRstrip l)
    if parts.length = 2 then acc ++ [parts.getD 1 []] else acc) []

/-- One printed column of the ratio row of `generate_tables`:
`"%.3f" % (float(losing[i]) / float(realizable[i]))`, with Python's evaluation order
of index errors, parse errors and the unguarded zero division. -/
def ratioChunk (losing realizable : List Str) (idx : ℤ) (tail : String) :
    Except Err Str := do
  let ls ← pyIndexI losing idx
  let lv ← pyFloatOfStr ls
  let rs ← pyIndexI realizable idx
  let rv ← pyFloatOfStr rs
  if rv = 0 then throw Err.zeroDivisionError
  else pure (reprFmt3 (lv / rv) ++ strL tail)

/-- One printed series row of `generate_tables` (lines 403–409): the display label,
the stripped first `len - 1` entries, then the last entry via the possibly negative
index `len - 1`. -/
def seriesRowChunks (name : String) (l : List Str) : List (Except Err Str) :=
  .ok (strL name ++ strL " &  ") ::
    (List.range (l.length - 1)).map (fun i => do
      let v ← pyIndexNat l i
      pure (pyStrip v ++ strL " &  ")) ++
    [do
      let v ← pyIndexI l ((l.length : ℤ) - 1)
      pure (pyStrip v ++ strL " \\\\\n")]

/-- The header row of column indices printed by `generate_tables` (lines 398–401). -/
def headerRowChunks (n : ℕ) : List (Except Err Str) :=
  .ok (strL "t  &  ") ::
    (List.range (n - 1)).map (fun i => .ok (reprNat (i + 1) ++ strL " &  ")) ++
    [.ok (reprNat n ++ strL " \\\\\n")]

/-- Model of `generate_tables(file_name)`: the text printed and the exception
raised, if any. -/
def generateTables (lines : List Str) : Str × Option Err :=
  let mas := (extractSeries lines (strL "Mean antichain size")).reverse
  let mlp := (extractSeries lines (strL "Mean number losing payoffs")).reverse
  let mrp := (extractSeries lines (strL "Mean number realizable payoffs")).reverse
  let cem := (extractSeries lines (strL "CE mean antichain size")).reverse
  let aom := (extractSeries lines (strL "AO mean antichain size")).reverse
  let n := mrp.length
  catE (headerRowChunks n
    ++ seriesRowChunks "$|\\paretoSet\x7bG\x7d|$" mas
    ++ seriesRowChunks "$|A|$ in Algorithm \\ref\x7balgo:fpt\x7d" cem
    ++ seriesRowChunks "$|A|$ in Algorithm \\ref\x7balgo:fpt-CE\x7d" aom
    ++ (.ok (strL "Ratio of lost payoffs &  ") ::
        (List.range (n - 1)).map (fun (i : ℕ) => ratioChunk mlp mrp (i : ℤ) " &  ")
        ++ [ratioChunk mlp mrp ((n : ℤ) - 1) " \\\\\n"]))

/-- Wellformedness of a generated statistics tuple: the four per-call time lists are
nonempty, so the `statistics.mean` calls of lines 124–133 succeed. -/
def WFStats (st : Stats) : Prop :=
  st.ce_calls_exists.2 ≠ [] ∧ st.ce_calls_dominated.2 ≠ [] ∧
    st.ao_calls1.2 ≠ [] ∧ st.ao_calls2.2 ≠ []

/-- A trial on which nothing fails: wellformed statistics and both algorithm answers
equal to the expected positivity. -/
def TrialGood (env : Env) (gp : PyVal) (i : ℤ) (j : ℕ) : Prop :=
  WFStats (env.stats i j) ∧ pyEqBool (env.ceAnswer i j) gp = true ∧
    pyEqBool (env.aoAnswer i j) gp = true

/-- All 21 accumulator lists have length `n`. -/
def accLens (acc : Acc) (n : ℕ) : Prop :=
  acc.temp_antichain_sizes.length = n ∧
  acc.temp_nbr_payoffs_losing_player_0.length = n ∧
  acc.temp_nbr_payoffs_realizable.length = n ∧
  acc.temp_counterexample_antichain_sizes.length = n ∧
  acc.temp_counterexample_nbr_calls.length = n ∧
  acc.temp_counterexample_nbr_calls_exists.length = n ∧
  acc.temp_counterexample_mean_time_calls_exists.length = n ∧
  acc.temp_counterexample_nbr_calls_dominated.length = n ∧
  acc.temp_counterexample_mean_time_calls_dominated.length = n ∧
  acc.temp_antichain_optimization_antichain_sizes.length = n ∧
  acc.temp_antichain_optimization_nbr_calls.length = n ∧
  acc.temp_antichain_optimization_nbr_calls1.length = n ∧
  acc.temp_antichain_optimization_mean_time_calls1.length = n ∧
  acc.temp_antichain_optimization_nbr_calls2.length = n ∧
  acc.temp_antichain_optimization_mean_time_calls2.length = n ∧
  acc.counterexample_times_process.length = n ∧
  acc.counterexample_times_perf_counter.length = n ∧
  acc.counterexample_times.length = n ∧
  acc.antichain_optimization_times_process.length = n ∧
  acc.antichain_optimization_times_perf_counter.length = n ∧
  acc.antichain_optimization_times.length = n

/-- Newline-terminated concatenation of a list of lines. -/
def unlines (ls : List Str) : Str := ls.foldr (fun l t => l ++ '\n' :: t) []

/-- The lines of a successfully written report block, in order: 24 raw-series lines,
2 mean-running-time lines, 15 scalar-mean lines, 3 blank lines. -/
def blockLines (i : ℤ) (params : List PyVal) (nbr : ℤ) (acc : Acc) : List Str :=
  [strL "Variable value used " ++ reprInt i,
   strL "Parameters " ++ reprPyValList params,
   strL "Number of objectives " ++ reprInt nbr,
   strL "Antichain sizes " ++ reprIntList acc.temp_antichain_sizes,
   strL "Number of payoffs losing " ++ reprIntList acc.temp_nbr_payoffs_losing_player_0,
   strL "Number of payoffs realizable " ++ reprIntList acc.temp_nbr_payoffs_realizable,
   strL "CE antichain sizes " ++ reprIntList acc.temp_counterexample_antichain_sizes,
   strL "CE exists calls " ++ reprIntList acc.temp_counterexample_nbr_calls_exists,
   strL "CE exists calls times " ++
     reprFloatList acc.temp_counterexample_mean_time_calls_exists,
   strL "CE dominated calls " ++ reprIntList acc.temp_counterexample_nbr_calls_dominated,
   strL "CE dominated calls times " ++
     reprFloatList acc.temp_counterexample_mean_time_calls_dominated,
   strL "CE total nbr calls " ++ reprIntList acc.temp_counterexample_nbr_calls,
   strL "CE times process " ++ reprFloatList acc.counterexample_times_process,
   strL "CE times perf " ++ reprFloatList acc.counterexample_times_perf_counter,
   strL "CE times " ++ reprFloatList acc.counterexample_times,
   strL "AO antichain sizes " ++
     reprIntList acc.temp_antichain_optimization_antichain_sizes,
   strL "AO call1 calls " ++ reprIntList acc.temp_antichain_optimization_nbr_calls1,
   strL "AO call1 calls times " ++
     reprFloatList acc.temp_antichain_optimization_mean_time_calls1,
   strL "AO call2 calls " ++ reprIntList acc.temp_antichain_optimization_nbr_calls2,
   strL "AO call2 calls times " ++
     reprFloatList acc.temp_antichain_optimization_mean_time_calls2,
   strL "AO total nbr calls " ++ reprIntList acc.temp_antichain_optimization_nbr_calls,
   strL "AO times process " ++ reprFloatList acc.antichain_optimization_times_process,
   strL "AO times perf " ++ reprFloatList acc.antichain_optimization_times_perf_counter,
   strL "AO times " ++ reprFloatList acc.antichain_optimization_times,
   strL "Mean running time CE " ++ reprFmt3 (pymean acc.counterexample_times_process) ++
     strL ", " ++ reprFmt3 (pymean acc.counterexample_times_perf_counter) ++
     strL ", " ++ reprFmt3 (pymean acc.counterexample_times),
   strL "Mean running time AO " ++
     reprFmt3 (pymean acc.antichain_optimization_times_process) ++
     strL ", " ++ reprFmt3 (pymean acc.antichain_optimization_times_perf_counter) ++
     strL ", " ++ reprFmt3 (pymean acc.antichain_optimization_times),
   strL "Mean antichain size " ++ reprFmt3 (pymeanZ acc.temp_antichain_sizes),
   strL "Mean number losing payoffs " ++
     reprFmt3 (pymeanZ acc.temp_nbr_payoffs_losing_player_0),
   strL "Mean number realizable payoffs " ++
     reprFmt3 (pymeanZ acc.temp_nbr_payoffs_realizable),
   strL "CE mean antichain size " ++
     reprFmt3 (pymeanZ acc.temp_counterexample_antichain_sizes),
   strL "CE mean nbr exists calls " ++
     reprFmt3 (pymeanZ acc.temp_counterexample_nbr_calls_exists),
   strL "CE mean exists time " ++
     reprFmt3 (pymean acc.temp_counterexample_mean_time_calls_exists),
   strL "CE mean nbr dominated calls " ++
     reprFmt3 (pymeanZ acc.temp_counterexample_nbr_calls_dominated),
   strL "CE mean dominated time " ++
     reprFmt3 (pymean acc.temp_counterexample_mean_time_calls_dominated),
   strL "CE mean total nbr calls " ++ reprFmt3 (pymeanZ acc.temp_counterexample_nbr_calls),
   strL "AO mean antichain size " ++
     reprFmt3 (pymeanZ acc.temp_antichain_optimization_antichain_sizes),
   strL "AO mean nbr call1 calls " ++
     reprFmt3 (pymeanZ acc.temp_antichain_optimization_nbr_calls1),
   strL "AO mean call1 time " ++
     reprFmt3 (pymean acc.temp_antichain_optimization_mean_time_calls1),
   strL "AO mean nbr call2 calls " ++
     reprFmt3 (pymeanZ acc.temp_antichain_optimization_nbr_calls2),
   strL "AO mean call2 time " ++
     reprFmt3 (pymean acc.temp_antichain_optimization_mean_time_calls2),
   strL "AO mean total nbr calls " ++
     reprFmt3 (pymeanZ acc.temp_antichain_optimization_nbr_calls),
   [], [], []]

/-- A concrete statistics tuple used by the witness environments. -/
def statsA : Stats :=
  { antichain_size := 3, nbr_payoffs_losing := 1, nbr_payoffs_realizable := 2,
    ce_antichain_size := 4, ce_calls_exists := (2, [1/4, 1/2]),
    ce_calls_dominated := (1, [1/8]), ao_antichain_size := 5,
    ao_calls1 := (3, [1/10]), ao_calls2 := (2, [3/10]) }

/-- A concrete one-trial accumulator used by witnesses. -/
def accW : Acc :=
  { temp_antichain_sizes := [3],
    temp_nbr_payoffs_losing_player_0 := [1],
    temp_nbr_payoffs_realizable := [2],
    temp_counterexample_antichain_sizes := [4],
    temp_counterexample_nbr_calls := [3],
    temp_counterexample_nbr_calls_exists := [2],
    temp_counterexample_mean_time_calls_exists := [3/8],
    temp_counterexample_nbr_calls_dominated := [1],
    temp_counterexample_mean_time_calls_dominated := [1/8],
    temp_antichain_optimization_antichain_sizes := [5],
    temp_antichain_optimization_nbr_calls := [5],
    temp_antichain_optimization_nbr_calls1 := [3],
    temp_antichain_optimization_mean_time_calls1 := [1/10],
    temp_antichain_optimization_nbr_calls2 := [2],
    temp_antichain_optimization_mean_time_calls2 := [3/10],
    counterexample_times_process := [26/1000],
    counterexample_times_perf_counter := [27/1000],
    counterexample_times := [28/1000],
    antichain_optimization_times_process := [1/10],
    antichain_optimization_times_perf_counter := [1/5],
    antichain_optimization_times := [3/10] }

/-- A concrete environment whose two algorithms both answer `true`. -/
def envA : Env :=
  { stats := fun _ _ => statsA,
    nbrObjectives := fun _ _ => 7,
    ceAnswer := fun _ _ => true,
    aoAnswer := fun _ _ => true,
    ceElapsed := fun _ _ => (26/1000, 27/1000, 28/1000),
    aoElapsed := fun _ _ => (1/10, 2/10, 3/10) }

/-- A concrete environment whose counterexample algorithm answers `false`. -/
def envCeBad : Env :=
  { envA with ceAnswer := fun _ _ => false }

/-- A concrete environment whose antichain-optimization algorithm answers `false`. -/
def envAoBad : Env :=
  { envA with aoAnswer := fun _ _ => false }

theorem roundQ_eq_round (q : ℚ) : roundQ q = round q := by
  have hden : (q.den : ℚ) ≠ 0 := Nat.cast_ne_zero.mpr q.den_nz
  have h0 : (q.num : ℚ) = q * q.den := (div_eq_iff hden).mp (Rat.num_div_den q)
  have hd2 : ((2 * q.den : ℕ) : ℚ) ≠ 0 :=
    Nat.cast_ne_zero.mpr (by have := q.den_pos; omega)
  have hq : q + 1 / 2 = ((2 * q.num + (q.den : ℤ) : ℤ) : ℚ) / ((2 * q.den : ℕ) : ℚ) := by
    rw [eq_div_iff hd2]
    push_cast
    linear_combination (-2 : ℚ) * h0
  rw [round_eq, roundQ, hq, Rat.floor_intCast_div_natCast,
    Int.fdiv_eq_ediv _ (by positivity)]

theorem charDigit_digitChar (d : ℕ) (h : d < 10) : charDigit (digitChar d) = some d := by
  interval_cases d <;> decide

theorem digitChar_mem (d : ℕ) : digitChar d ∈ strL "0123456789*" := by
  unfold digitChar
  split_ifs <;> decide

theorem digit_set_props (c : Char) (h : c ∈ strL "0123456789*") :
    c ≠ '\n' ∧ c ≠ ' ' ∧ c ≠ ',' ∧ c ≠ '.' ∧ c ≠ '-' ∧ c ≠ '[' ∧ c ≠ ']' ∧
      isPyWS c = false := by
  rw [show strL "0123456789*" =
    ['0', '1', '2', '3', '4', '5', '6', '7', '8', '9', '*'] from by decide] at h
  simp only [List.mem_cons, List.not_mem_nil, or_false] at h
  rcases h with rfl | rfl | rfl | rfl | rfl | rfl | rfl | rfl | rfl | rfl | rfl <;> decide

theorem natDigitsAux_digit_lt (fuel : ℕ) : ∀ n, ∀ d ∈ natDigitsAux fuel n, d < 10 := by
  induction fuel with
  | zero => intro n d hd; simp [natDigitsAux] at hd
  | succ f ih =>
    intro n d hd
    rw [natDigitsAux] at hd
    by_cases h : n = 0
    · simp [h] at hd
    · rw [if_neg h] at hd
      rcases List.mem_append.mp hd with h1 | h2
      · exact ih _ _ h1
      · simp at h2
        omega

theorem foldDigits_natDigitsAux (fuel : ℕ) : ∀ n a, n ≤ fuel →
    List.foldl (fun x d => x * 10 + d) a (natDigitsAux fuel n) =
      a * 10 ^ (natDigitsAux fuel n).length + n := by
  induction fuel with
  | zero =>
    intro n a hn
    interval_cases n
    simp [natDigitsAux]
  | succ f ih =>
    intro n a hn
    rw [natDigitsAux]
    by_cases h : n = 0
    · simp [h]
    · rw [if_neg h, List.foldl_append, List.length_append]
      have hdiv : n / 10 ≤ f := by omega
      rw [ih (n / 10) a hdiv]
      simp only [List.foldl_cons, List.foldl_nil, List.length_cons, List.length_nil]
      rw [pow_succ, ← mul_assoc]
      generalize a * 10 ^ (natDigitsAux f (n / 10)).length = M
      omega

theorem natDigitsAux_ne_nil (fuel n : ℕ) (h0 : 0 < n) (hf : n ≤ fuel) :
    natDigitsAux fuel n ≠ [] := by
  cases fuel with
  | zero => omega
  | succ f =>
    rw [natDigitsAux, if_neg (by omega)]
    simp

theorem foldDigits_natDigits (n : ℕ) : foldDigits (natDigits n) = n := by
  have := foldDigits_natDigitsAux n n 0 le_rfl
  simpa [foldDigits, natDigits] using this

theorem natDigits_digit_lt (n : ℕ) : ∀ d ∈ natDigits n, d < 10 :=
  natDigitsAux_digit_lt n n

theorem mapMO_charDigit_map (ds : List ℕ) (h : ∀ d ∈ ds, d < 10) :
    mapMO charDigit (ds.map digitChar) = some ds := by
  induction ds with
  | nil => rfl
  | cons d ds ih =>
    have h1 : charDigit (digitChar d) = some d := charDigit_digitChar d (h d (by simp))
    have h2 := ih (fun x hx => h x (by simp [hx]))
    simp [mapMO, h1, h2]

theorem reprNat_chars (n : ℕ) : ∀ c ∈ reprNat n, c ∈ strL "0123456789*" := by
  unfold reprNat
  split_ifs with h
  · intro c hc
    simp at hc
    subst hc
    decide
  · intro c hc
    obtain ⟨d, _, rfl⟩ := List.mem_map.mp hc
    exact digitChar_mem d

theorem reprNat_no_char (n : ℕ) (c : Char) (hc : c ∉ strL "0123456789*") :
    c ∉ reprNat n :=
  fun h => hc (reprNat_chars n c h)

theorem reprNat_ne_nil (n : ℕ) : reprNat n ≠ [] := by
  unfold reprNat
  split_ifs with h
  · simp
  · have := natDigitsAux_ne_nil n n (by omega) le_rfl
    simpa [natDigits] using this

theorem parseNatStr_reprNat (n : ℕ) : parseNatStr (reprNat n) = some n := by
  by_cases h : n = 0
  · subst h; decide
  · have hne : reprNat n ≠ [] := reprNat_ne_nil n
    rw [parseNatStr, if_neg hne]
    rw [reprNat, if_neg h, mapMO_charDigit_map _ (natDigits_digit_lt n)]
    simp [foldDigits_natDigits]

theorem head?_append_of_ne_nil {α : Type} (A B : List α) (h : A ≠ []) :
    (A ++ B).head? = A.head? := by
  cases A with
  | nil => exact absurd rfl h
  | cons a as => rfl

theorem reprNat_head_not_minus (n : ℕ) (B : Str) :
    (reprNat n ++ B).head? ≠ some '-' := by
  rw [head?_append_of_ne_nil _ _ (reprNat_ne_nil n)]
  cases hr : reprNat n with
  | nil => exact absurd hr (reprNat_ne_nil n)
  | cons c cs =>
    have hc : c ∈ strL "0123456789*" := reprNat_chars n c (by rw [hr]; simp)
    have := (digit_set_props c hc).2.2.2.2.1
    simp [this]

theorem parseIntStr_reprInt (n : ℤ) : parseIntStr (reprInt n) = some n := by
  by_cases h : n < 0
  · rw [reprInt, if_pos h, parseIntStr]
    simp only [List.head?_cons, List.tail_cons, if_pos rfl, parseNatStr_reprNat]
    have habs : ((n.natAbs : ℤ)) = -n := by omega
    simp [habs]
  · rw [reprInt, if_neg h, parseIntStr]
    have hh := reprNat_head_not_minus n.natAbs []
    rw [List.append_nil] at hh
    rw [if_neg hh, parseNatStr_reprNat]
    have habs : ((n.natAbs : ℤ)) = n := by omega
    simp [habs]

theorem foldDigits_replicate_zero (z : ℕ) (ds : List ℕ) :
    foldDigits (List.replicate z 0 ++ ds) = foldDigits ds := by
  induction z with
  | zero => rfl
  | succ k ih => simpa [List.replicate_succ, foldDigits] using ih

theorem natDigitsAux_length_le (fuel : ℕ) : ∀ n k, n ≤ fuel → n < 10 ^ k →
    (natDigitsAux fuel n).length ≤ k := by
  induction fuel with
  | zero =>
    intro n k hn _
    interval_cases n
    simp [natDigitsAux]
  | succ f ih =>
    intro n k hn hk
    rw [natDigitsAux]
    by_cases h : n = 0
    · simp [h]
    · rw [if_neg h, List.length_append]
      cases k with
      | zero => simp at hk; omega
      | succ k0 =>
        have h1 : n / 10 < 10 ^ k0 := by
          rw [Nat.div_lt_iff_lt_mul (by norm_num)]
          calc n < 10 ^ (k0 + 1) := hk
          _ = 10 ^ k0 * 10 := by rw [pow_succ]
        have := ih (n / 10) k0 (by omega) h1
        simp only [List.length_cons, List.length_nil]
        omega

theorem natDigits_length_le (f k : ℕ) (h : f < 10 ^ k) : (natDigits f).length ≤ k :=
  natDigitsAux_length_le f f k le_rfl h

theorem padDigits_length (k f : ℕ) (h : f < 10 ^ k) : (padDigits k f).length = k := by
  unfold padDigits
  rw [List.length_append, List.length_replicate]
  have := natDigits_length_le f k h
  omega

theorem foldDigits_padDigits (k f : ℕ) : foldDigits (padDigits k f) = f := by
  unfold padDigits
  rw [foldDigits_replicate_zero, foldDigits_natDigits]

theorem padDigits_digit_lt (k f : ℕ) : ∀ d ∈ padDigits k f, d < 10 := by
  intro d hd
  rcases List.mem_append.mp hd with h1 | h2
  · have := List.eq_of_mem_replicate h1
    omega
  · exact natDigits_digit_lt f d h2

theorem splitOnCh_ne_nil (c : Char) (s : Str) : splitOnCh c s ≠ [] := by
  cases s with
  | nil => simp [splitOnCh]
  | cons d ds =>
    rw [splitOnCh]
    split_ifs
    · simp
    · cases h : splitOnCh c ds <;> simp

theorem splitOnCh_append_cons (c : Char) (t rest : Str) (h : c ∉ t) :
    splitOnCh c (t ++ c :: rest) = t :: splitOnCh c rest := by
  induction t with
  | nil => simp [splitOnCh]
  | cons d ds ih =>
    have hd : d ≠ c := fun hh => h (by simp [hh])
    have hds : c ∉ ds := fun hh => h (by simp [hh])
    rw [List.cons_append, splitOnCh, if_neg hd, ih hds]

theorem splitOnCh_single (c : Char) (t : Str) (h : c ∉ t) : splitOnCh c t = [t] := by
  induction t with
  | nil => rfl
  | cons d ds ih =>
    have hd : d ≠ c := fun hh => h (by simp [hh])
    have hds : c ∉ ds := fun hh => h (by simp [hh])
    rw [splitOnCh, if_neg hd, ih hds]

theorem joinOnCh_cons_head (c d : Char) (t : Str) (ts : List Str) :
    joinOnCh c ((d :: t) :: ts) = d :: joinOnCh c (t :: ts) := by
  cases ts <;> rfl

theorem joinOnCh_splitOnCh (c : Char) (s : Str) : joinOnCh c (splitOnCh c s) = s := by
  induction s with
  | nil => rfl
  | cons d ds ih =>
    rw [splitOnCh]
    split_ifs with h
    · subst h
      rcases hsp : splitOnCh d ds with _ | ⟨t, ts⟩
      · exact absurd hsp (splitOnCh_ne_nil d ds)
      · rw [hsp] at ih
        rw [show joinOnCh d ([] :: t :: ts) = d :: joinOnCh d (t :: ts) from rfl, ih]
    · rcases hsp : splitOnCh c ds with _ | ⟨t, ts⟩
      · exact absurd hsp (splitOnCh_ne_nil c ds)
      · rw [hsp] at ih
        rw [joinOnCh_cons_head, ih]

theorem splitOnCh_head_cons (c d : Char) (u : Str) (h : d ≠ c) :
    ∃ t ts, splitOnCh c (d :: u) = (d :: t) :: ts := by
  rw [splitOnCh, if_neg h]
  rcases hsp : splitOnCh c u with _ | ⟨t, ts⟩
  · exact absurd hsp (splitOnCh_ne_nil c u)
  · exact ⟨t, ts, rfl⟩

theorem splitCS_sep_cons (rest : Str) : splitCS (',' :: ' ' :: rest) = [] :: splitCS rest := by
  rw [splitCS, if_pos ⟨rfl, rfl⟩]

theorem splitCS_single (t : Str) (h : ',' ∉ t) : splitCS t = [t] := by
  induction t with
  | nil => rfl
  | cons d ds ih =>
    cases ds with
    | nil => rfl
    | cons e es =>
      have hd : d ≠ ',' := fun hh => h (by simp [hh])
      have hds : ',' ∉ e :: es := fun hh => h (by simp [hh])
      rw [splitCS, if_neg (by
        intro hand
        exact hd hand.1), ih hds]

theorem splitCS_append (t rest : Str) (h : ',' ∉ t) :
    splitCS (t ++ ',' :: ' ' :: rest) = t :: splitCS rest := by
  induction t with
  | nil => simpa using splitCS_sep_cons rest
  | cons d ds ih =>
    have hd : d ≠ ',' := fun hh => h (by simp [hh])
    have hds : ',' ∉ ds := fun hh => h (by simp [hh])
    cases ds with
    | nil =>
      rw [show (d :: ([] : Str)) ++ ',' :: ' ' :: rest = d :: ',' :: ' ' :: rest from rfl]
      rw [splitCS, if_neg (fun hand => hd hand.1), splitCS_sep_cons]
    | cons e es =>
      rw [show (d :: e :: es) ++ ',' :: ' ' :: rest
        = d :: e :: (es ++ ',' :: ' ' :: rest) from rfl]
      rw [splitCS, if_neg (fun hand => hd hand.1)]
      rw [List.cons_append] at ih
      rw [ih hds]

theorem sign_set_props (c : Char) (h : c ∈ strL "-.0123456789*") :
    c ≠ ',' ∧ c ≠ ' ' ∧ c ≠ '\n' ∧ c ≠ '[' ∧ c ≠ ']' ∧ isPyWS c = false := by
  rw [show strL "-.0123456789*" =
    ['-', '.', '0', '1', '2', '3', '4', '5', '6', '7', '8', '9', '*'] from by decide] at h
  simp only [List.mem_cons, List.not_mem_nil, or_false] at h
  rcases h with rfl | rfl | rfl | rfl | rfl | rfl | rfl | rfl | rfl | rfl | rfl | rfl | rfl <;>
    decide

theorem digit_subset_sign (c : Char) (h : c ∈ strL "0123456789*") :
    c ∈ strL "-.0123456789*" := by
  rw [show strL "0123456789*" =
    ['0', '1', '2', '3', '4', '5', '6', '7', '8', '9', '*'] from by decide] at h
  simp only [List.mem_cons, List.not_mem_nil, or_false] at h
  rcases h with rfl | rfl | rfl | rfl | rfl | rfl | rfl | rfl | rfl | rfl | rfl <;> decide

theorem reprUFloat_chars (n k : ℕ) : ∀ c ∈ reprUFloat n k, c ∈ strL "-.0123456789*" := by
  intro c hc
  unfold reprUFloat at hc
  split_ifs at hc
  · rcases List.mem_append.mp hc with h1 | h2
    · exact digit_subset_sign _ (reprNat_chars _ _ h1)
    · rw [show strL ".0" = ['.', '0'] from by decide] at h2
      simp only [List.mem_cons, List.not_mem_nil, or_false] at h2
      rcases h2 with rfl | rfl <;> decide
  · rcases List.mem_append.mp hc with h1 | h2
    · exact digit_subset_sign _ (reprNat_chars _ _ h1)
    · rcases List.mem_cons.mp h2 with rfl | h3
      · decide
      · obtain ⟨d, _, rfl⟩ := List.mem_map.mp h3
        exact digit_subset_sign _ (digitChar_mem d)

theorem reprUFloat_ne_nil (n k : ℕ) : reprUFloat n k ≠ [] := by
  unfold reprUFloat
  split_ifs <;> simp [reprNat_ne_nil]

theorem reprFmt3_chars (q : ℚ) : ∀ c ∈ reprFmt3 q, c ∈ strL "-.0123456789*" := by
  intro c hc
  unfold reprFmt3 at hc
  rcases List.mem_append.mp hc with h1 | h2
  · split_ifs at h1
    · simp only [List.mem_singleton] at h1
      subst h1
      decide
    · simp at h1
  · exact reprUFloat_chars _ _ c h2

theorem reprFmt3_ne_nil (q : ℚ) : reprFmt3 q ≠ [] := by
  unfold reprFmt3
  intro h
  rcases List.append_eq_nil.mp h with ⟨_, h2⟩
  exact reprUFloat_ne_nil _ _ h2

theorem reprFloatQ_chars (q : ℚ) : ∀ c ∈ reprFloatQ q, c ∈ strL "-.0123456789*" := by
  intro c hc
  unfold reprFloatQ at hc
  rcases hdp : denPow10 q.den with _ | k
  · rw [hdp] at hc
    rw [show strL "0.0" = ['0', '.', '0'] from by decide] at hc
    simp only [List.mem_cons, List.not_mem_nil, or_false] at hc
    rcases hc with rfl | rfl | rfl <;> decide
  · rw [hdp] at hc
    rcases List.mem_append.mp hc with h1 | h2
    · split_ifs at h1
      · simp only [List.mem_singleton] at h1
        subst h1
        decide
      · simp at h1
    · exact reprUFloat_chars _ _ c h2

theorem reprFloatQ_ne_nil (q : ℚ) : reprFloatQ q ≠ [] := by
  unfold reprFloatQ
  rcases denPow10 q.den with _ | k
  · show strL "0.0" ≠ []
    decide
  · intro h
    rcases List.append_eq_nil.mp h with ⟨_, h2⟩
    exact reprUFloat_ne_nil _ _ h2

theorem parseUFloat_reprUFloat (n k : ℕ) :
    parseUFloat (reprUFloat n k) = some ((n : ℚ) / 10 ^ k) := by
  unfold reprUFloat parseUFloat
  split_ifs with hk
  · subst hk
    rw [show strL ".0" = '.' :: ['0'] from by decide]
    rw [splitOnCh_append_cons '.' _ _ (reprNat_no_char n '.' (by decide))]
    rw [splitOnCh_single '.' ['0'] (by decide)]
    simp only [List.length_cons, List.length_nil, List.getD, List.get?_cons_zero,
      List.get?_cons_succ, Option.getD_some]
    norm_num [parseNatStr_reprNat, mapMO, charDigit, foldDigits]
  · rw [splitOnCh_append_cons '.' _ _ (reprNat_no_char _ '.' (by decide))]
    have hdl : '.' ∉ (padDigits k (n % 10 ^ k)).map digitChar := by
      intro hmem
      obtain ⟨d, _, hdc⟩ := List.mem_map.mp hmem
      exact (digit_set_props (digitChar d) (digitChar_mem d)).2.2.2.1 hdc
    rw [splitOnCh_single '.' _ hdl]
    simp only [List.length_cons, List.length_nil, List.getD, List.get?_cons_zero,
      List.get?_cons_succ, Option.getD_some, if_true]
    rw [parseNatStr_reprNat, mapMO_charDigit_map _ (padDigits_digit_lt _ _)]
    norm_num
    rw [foldDigits_padDigits, padDigits_length k _ (Nat.mod_lt _ (by positivity))]
    have key : ((10 : ℚ) ^ k) * ((n / 10 ^ k : ℕ) : ℚ) + ((n % 10 ^ k : ℕ) : ℚ) = (n : ℚ) := by
      exact_mod_cast Nat.div_add_mod n (10 ^ k)
    have hne : ((10 : ℚ) ^ k) ≠ 0 := by positivity
    field_simp
    linarith [key]

theorem parseFloatQ_sign_body (P : Prop) [Decidable P] (body : Str) (v : ℚ)
    (hbody : parseUFloat body = some v) (hhead : body.head? ≠ some '-') :
    parseFloatQ ((if P then ['-'] else []) ++ body) = some (if P then -v else v) := by
  split_ifs with hp
  · rw [List.cons_append, List.nil_append, parseFloatQ]
    simp [hbody]
  · rw [List.nil_append, parseFloatQ, if_neg hhead, hbody]

theorem reprUFloat_head_not_minus (n k : ℕ) : (reprUFloat n k).head? ≠ some '-' := by
  unfold reprUFloat
  split_ifs
  · exact reprNat_head_not_minus n _
  · exact reprNat_head_not_minus _ _

theorem parseFloatQ_reprFmt3 (q : ℚ) : parseFloatQ (reprFmt3 q) = some (fmt3 q) := by
  rw [reprFmt3, parseFloatQ_sign_body _ _ _ (parseUFloat_reprUFloat _ 3)
    (reprUFloat_head_not_minus _ 3)]
  congr 1
  rw [fmt3]
  have habs : (((roundQ (q * 1000)).natAbs : ℚ)) = |((roundQ (q * 1000) : ℤ) : ℚ)| := by
    push_cast [Int.cast_natAbs]
    norm_num
  split_ifs with hneg
  · rw [habs, abs_of_neg (by exact_mod_cast hneg)]
    norm_num
    ring
  · rw [habs, abs_of_nonneg (by exact_mod_cast not_lt.mp hneg)]
    norm_num

theorem denPow10_spec (d : ℕ) (h : d ∣ 10 ^ 40) : ∃ k, denPow10 d = some k ∧ d ∣ 10 ^ k := by
  rcases hf : (List.range 41).find? (fun k => 10 ^ k % d == 0) with _ | k
  · exfalso
    have h40 := List.find?_eq_none.mp hf 40 (by simp)
    simp only [beq_iff_eq] at h40
    exact h40 (Nat.mod_eq_zero_of_dvd h)
  · refine ⟨k, hf, ?_⟩
    have := List.find?_some hf
    simp only [beq_iff_eq] at this
    exact Nat.dvd_of_mod_eq_zero this

theorem parseFloatQ_reprFloatQ (q : ℚ) (h : q.den ∣ 10 ^ 40) :
    parseFloatQ (reprFloatQ q) = some q := by
  obtain ⟨k, hdp, hdvd⟩ := denPow10_spec q.den h
  have hshow : reprFloatQ q =
      (if q < 0 then ['-'] else []) ++ reprUFloat (q.num.natAbs * (10 ^ k / q.den)) k := by
    unfold reprFloatQ
    rw [hdp]
  rw [hshow, parseFloatQ_sign_body _ _ _ (parseUFloat_reprUFloat _ k)
    (reprUFloat_head_not_minus _ k)]
  have hd0 : ((q.den : ℚ)) ≠ 0 := Nat.cast_ne_zero.mpr q.den_nz
  have hcast : ((10 ^ k / q.den : ℕ) : ℚ) = (10 : ℚ) ^ k / (q.den : ℚ) := by
    rw [Nat.cast_div hdvd hd0]
    push_cast
    rfl
  have hval : ((q.num.natAbs * (10 ^ k / q.den) : ℕ) : ℚ) / 10 ^ k =
      ((q.num.natAbs : ℚ)) / q.den := by
    push_cast [hcast]
    have h10 : ((10 : ℚ) ^ k) ≠ 0 := by positivity
    field_simp
    ring
  have habs : ((q.num.natAbs : ℚ)) = |((q.num : ℤ) : ℚ)| := by
    push_cast [Int.cast_natAbs]
    norm_num
  have hnum : ((q.num : ℚ)) / q.den = q := Rat.num_div_den q
  congr 1
  rw [hval, habs]
  split_ifs with hneg
  · have hn : ((q.num : ℚ)) < 0 := by
      rw [show ((q.num : ℚ)) = q * q.den from ((div_eq_iff hd0).mp hnum)]
      have : (0 : ℚ) < q.den := by positivity
      exact mul_neg_of_neg_of_pos hneg this
    rw [abs_of_neg hn]
    rw [show -(q.num : ℚ) / q.den = -((q.num : ℚ) / q.den) from by ring, hnum]
    exact neg_neg q
  · have hn : (0 : ℚ) ≤ ((q.num : ℚ)) := by
      rw [show ((q.num : ℚ)) = q * q.den from ((div_eq_iff hd0).mp hnum)]
      have hq : (0 : ℚ) ≤ q := not_lt.mp hneg
      positivity
    rw [abs_of_nonneg hn, hnum]

theorem joinCS_ne_nil_head (t : Str) (ts : List Str) (h : t ≠ []) :
    joinCS (t :: ts) ≠ [] := by
  cases ts with
  | nil => simpa [joinCS] using h
  | cons u us =>
    rw [show joinCS (t :: u :: us) = t ++ ',' :: ' ' :: joinCS (u :: us) from rfl]
    simp

theorem splitCS_joinCS (l : List Str) (hne : ∀ t ∈ l, t ≠ []) (hc : ∀ t ∈ l, ',' ∉ t)
    (h : l ≠ []) : splitCS (joinCS l) = l := by
  induction l with
  | nil => exact absurd rfl h
  | cons t ts ih =>
    cases ts with
    | nil =>
      rw [show joinCS [t] = t from rfl]
      exact splitCS_single t (hc t (by simp))
    | cons u us =>
      rw [show joinCS (t :: u :: us) = t ++ ',' :: ' ' :: joinCS (u :: us) from rfl]
      rw [splitCS_append _ _ (hc t (by simp))]
      rw [ih (fun x hx => hne x (by simp [hx])) (fun x hx => hc x (by simp [hx])) (by simp)]

theorem mapMO_parseFloatQ_map (l : List ℚ) (h : ∀ q ∈ l, q.den ∣ 10 ^ 40) :
    mapMO parseFloatQ (l.map reprFloatQ) = some l := by
  induction l with
  | nil => rfl
  | cons q qs ih =>
    have h1 : parseFloatQ (reprFloatQ q) = some q := parseFloatQ_reprFloatQ q (h q (by simp))
    have h2 := ih (fun x hx => h x (by simp [hx]))
    simp [mapMO, h1, h2]

theorem reprFloatQ_no_comma (q : ℚ) : ',' ∉ reprFloatQ q :=
  fun hm => (sign_set_props _ (reprFloatQ_chars q _ hm)).1 rfl

theorem pyLiteralEval_reprFloatList (l : List ℚ) (h : ∀ q ∈ l, q.den ∣ 10 ^ 40) :
    pyLiteralEval (reprFloatList l) = .ok (.seq l) := by
  cases l with
  | nil => decide
  | cons q qs =>
    have hjne : joinCS ((q :: qs).map reprFloatQ) ≠ [] :=
      joinCS_ne_nil_head _ _ (reprFloatQ_ne_nil q)
    have hsplit : splitCS (joinCS ((q :: qs).map reprFloatQ)) = (q :: qs).map reprFloatQ :=
      splitCS_joinCS _ (fun t ht => by
          obtain ⟨x, _, rfl⟩ := List.mem_map.mp ht
          exact reprFloatQ_ne_nil x)
        (fun t ht => by
          obtain ⟨x, _, rfl⟩ := List.mem_map.mp ht
          exact reprFloatQ_no_comma x)
        (by simp)
    have hmap : mapMO parseFloatQ ((q :: qs).map reprFloatQ) = some (q :: qs) :=
      mapMO_parseFloatQ_map _ h
    simp only [List.map_cons] at hjne hsplit hmap
    simp [pyLiteralEval, reprFloatList, hjne, hsplit, hmap]

theorem den_dvd_40 (q : ℚ) (h : (q * 1000).den = 1) : q.den ∣ 10 ^ 40 := by
  have hm : ((q * 1000).num : ℚ) = q * 1000 := (Rat.den_eq_one_iff _).mp h
  have hq : q = Rat.divInt (q * 1000).num 1000 := by
    rw [Rat.divInt_eq_div, hm]
    push_cast
    ring
  have hdvd : ((Rat.divInt (q * 1000).num 1000).den : ℤ) ∣ 1000 := Rat.den_dvd _ 1000
  rw [← hq] at hdvd
  have hd : q.den ∣ 1000 := by exact_mod_cast hdvd
  exact dvd_trans hd ⟨10 ^ 37, by norm_num⟩

theorem getLast?_append_reprFloatList (A : Str) (l : List ℚ) :
    (A ++ reprFloatList l).getLast? = some ']' := by
  rw [reprFloatList]
  rw [← List.append_assoc]
  exact List.getLast?_concat _

theorem pyRstrip_eq_self (s : Str) (c : Char) (hl : s.getLast? = some c)
    (hc : isPyWS c = false) : pyRstrip s = s := by
  unfold pyRstrip
  rcases hr : s.reverse with _ | ⟨d, t⟩
  · have hs : s = [] := by simpa using congrArg List.reverse hr
    simp [hs]
  · have hd : d = c := by
      have hrev := List.head?_reverse s
      rw [hr, hl] at hrev
      simpa using hrev
    subst hd
    have hdw : List.dropWhile isPyWS (d :: t) = d :: t := by
      simp [List.dropWhile_cons, hc]
    rw [hdw, ← hr, List.reverse_reverse]

theorem split_one_token (full w1 : String) (rest : Str)
    (heq : strL full = strL w1 ++ [' ']) (h1 : ' ' ∉ strL w1) :
    splitOnCh ' ' (strL full ++ rest) = strL w1 :: splitOnCh ' ' rest := by
  rw [heq]
  rw [show (strL w1 ++ [' ']) ++ rest = strL w1 ++ ' ' :: rest from by simp]
  rw [splitOnCh_append_cons _ _ _ h1]

theorem split_two_tokens (full w1 w2 : String) (rest : Str)
    (heq : strL full = strL w1 ++ ' ' :: (strL w2 ++ [' ']))
    (h1 : ' ' ∉ strL w1) (h2 : ' ' ∉ strL w2) :
    splitOnCh ' ' (strL full ++ rest) = strL w1 :: strL w2 :: splitOnCh ' ' rest := by
  rw [heq]
  rw [show (strL w1 ++ ' ' :: (strL w2 ++ [' '])) ++ rest
      = strL w1 ++ ' ' :: (strL w2 ++ ' ' :: rest) from by simp]
  rw [splitOnCh_append_cons _ _ _ h1, splitOnCh_append_cons _ _ _ h2]

theorem split_three_tokens (full w1 w2 w3 : String) (rest : Str)
    (heq : strL full = strL w1 ++ ' ' :: (strL w2 ++ ' ' :: (strL w3 ++ [' '])))
    (h1 : ' ' ∉ strL w1) (h2 : ' ' ∉ strL w2) (h3 : ' ' ∉ strL w3) :
    splitOnCh ' ' (strL full ++ rest) =
      strL w1 :: strL w2 :: strL w3 :: splitOnCh ' ' rest := by
  rw [heq]
  rw [show (strL w1 ++ ' ' :: (strL w2 ++ ' ' :: (strL w3 ++ [' ']))) ++ rest
      = strL w1 ++ ' ' :: (strL w2 ++ ' ' :: (strL w3 ++ ' ' :: rest)) from by simp]
  rw [splitOnCh_append_cons _ _ _ h1, splitOnCh_append_cons _ _ _ h2,
    splitOnCh_append_cons _ _ _ h3]

theorem lblMatch_ne_first (t : Str) (ts : List Str) (l : Str) (ls : List Str) (h : t ≠ l) :
    lblMatch (t :: ts) (l :: ls) = .ok false := by
  simp [lblMatch, h]

theorem lblMatch_cons_eq (t : Str) (ts : List Str) (ls : List Str) :
    lblMatch (t :: ts) (t :: ls) = lblMatch ts ls := by
  simp [lblMatch]

/-- C8: values written by the report writer as a label line with a list literal
(here `"CE times process " + str(list)` with 3-decimal values) are recovered exactly
by the report parser's literal decoder, which splits the `rstrip`-ped line on spaces,
joins the tokens after the 3-token label back with spaces, and applies
`ast.literal_eval`. -/
theorem claim_C8 (vs : List ℚ) (h3 : ∀ q ∈ vs, (q * 1000).den = 1) :
    pyLiteralEval (joinOnCh ' '
      ((splitOnCh ' ' (pyRstrip (strL "CE times process " ++ reprFloatList vs))).drop 3)) =
      Except.ok (PyLit.seq vs) := by
  have hlast := getLast?_append_reprFloatList (strL "CE times process ") vs
  rw [pyRstrip_eq_self _ ']' hlast (by decide)]
  rw [split_three_tokens "CE times process " "CE" "times" "process" _
    (by decide) (by decide) (by decide) (by decide)]
  rw [show (strL "CE" :: strL "times" :: strL "process" ::
      splitOnCh ' ' (reprFloatList vs)).drop 3 = splitOnCh ' ' (reprFloatList vs) from rfl]
  rw [joinOnCh_splitOnCh]
  exact pyLiteralEval_reprFloatList vs (fun q hq => den_dvd_40 q (h3 q hq))

/-- Witness for C8 at the concrete 3-decimal series `[0.026, 2.0]`. -/
theorem claim_C8_witness :
    pyLiteralEval (joinOnCh ' '
      ((splitOnCh ' ' (pyRstrip (strL "CE times process " ++
        reprFloatList [26 / 1000, 2]))).drop 3)) =
      Except.ok (PyLit.seq [26 / 1000, 2]) :=
  claim_C8 [26 / 1000, 2] (by with_unfolding_all decide)

theorem foldl_append_const {α β : Type} (x : α) (init : List α) (l : List β) :
    l.foldl (fun acc _ => acc ++ [x]) init = init ++ List.replicate l.length x := by
  induction l generalizing init with
  | nil => simp
  | cons b bs ih =>
    rw [List.foldl_cons, ih, List.length_cons, List.replicate_succ]
    simp

/-- C6: the x-axis transform applied by `parse_results` to each decoded
`Variable value used` integer, replicated once per trial: `2 + 2·v` for the
objective-growth sweep, the identity for the vertex-growth and random sweeps. -/
theorem claim_C6 (N : ℕ) (v : ℤ) :
    variableAppends (strL "intersection_objectives") N v = List.replicate N (2 + 2 * v) ∧
    variableAppends (strL "intersection_vertices") N v = List.replicate N v ∧
    variableAppends (strL "random") N v = List.replicate N v := by
  refine ⟨?_, ?_, ?_⟩
  · rw [variableAppends]
    have hstep : ∀ (acc : List ℤ) (k : ℕ), k ∈ List.range N →
        (acc ++ (if strL "intersection_objectives" = strL "intersection_vertices"
              then [v] else [])
            ++ (if strL "intersection_objectives" = strL "intersection_objectives"
              then [2 + v * 2] else [])
            ++ (if strL "intersection_objectives" = strL "random" then [v] else []))
          = acc ++ [2 + v * 2] := by
      intro acc k _
      rw [if_neg (by decide), if_pos rfl, if_neg (by decide)]
      simp
    rw [List.foldl_ext _ (fun (acc : List ℤ) (_ : ℕ) => acc ++ [2 + v * 2]) [] hstep,
      foldl_append_const, List.length_range]
    simp [mul_comm]
  · rw [variableAppends]
    have hstep : ∀ (acc : List ℤ) (k : ℕ), k ∈ List.range N →
        (acc ++ (if strL "intersection_vertices" = strL "intersection_vertices"
              then [v] else [])
            ++ (if strL "intersection_vertices" = strL "intersection_objectives"
              then [2 + v * 2] else [])
            ++ (if strL "intersection_vertices" = strL "random" then [v] else []))
          = acc ++ [v] := by
      intro acc k _
      rw [if_pos rfl, if_neg (by decide), if_neg (by decide)]
      simp
    rw [List.foldl_ext _ (fun (acc : List ℤ) (_ : ℕ) => acc ++ [v]) [] hstep,
      foldl_append_const, List.length_range]
    simp
  · rw [variableAppends]
    have hstep : ∀ (acc : List ℤ) (k : ℕ), k ∈ List.range N →
        (acc ++ (if strL "random" = strL "intersection_vertices" then [v] else [])
            ++ (if strL "random" = strL "intersection_objectives" then [2 + v * 2] else [])
            ++ (if strL "random" = strL "random" then [v] else []))
          = acc ++ [v] := by
      intro acc k _
      rw [if_neg (by decide), if_neg (by decide), if_pos rfl]
      simp
    rw [List.foldl_ext _ (fun (acc : List ℤ) (_ : ℕ) => acc ++ [v]) [] hstep,
      foldl_append_const, List.length_range]
    simp

theorem length_ne_nil {α : Type} (l : List α) (n : ℕ) (h : l.length = n) (hn : 1 ≤ n) :
    l ≠ [] := by
  intro he
  subst he
  simp at h
  omega

theorem writeBlock_lines (i : ℤ) (params : List PyVal) (nbr : ℤ) (acc : Acc) (n : ℕ)
    (hacc : accLens acc n) (hn : 1 ≤ n) :
    writeBlock i params (some nbr) acc = (unlines (blockLines i params nbr acc), none) := by
  obtain ⟨h1, h2, h3, h4, h5, h6, h7, h8, h9, h10, h11, h12, h13, h14, h15,
    h16, h17, h18, h19, h20, h21⟩ := hacc
  have ne1 := length_ne_nil _ n h1 hn
  have ne2 := length_ne_nil _ n h2 hn
  have ne3 := length_ne_nil _ n h3 hn
  have ne4 := length_ne_nil _ n h4 hn
  have ne5 := length_ne_nil _ n h5 hn
  have ne6 := length_ne_nil _ n h6 hn
  have ne7 := length_ne_nil _ n h7 hn
  have ne8 := length_ne_nil _ n h8 hn
  have ne9 := length_ne_nil _ n h9 hn
  have ne10 := length_ne_nil _ n h10 hn
  have ne11 := length_ne_nil _ n h11 hn
  have ne12 := length_ne_nil _ n h12 hn
  have ne13 := length_ne_nil _ n h13 hn
  have ne14 := length_ne_nil _ n h14 hn
  have ne15 := length_ne_nil _ n h15 hn
  have ne16 := length_ne_nil _ n h16 hn
  have ne17 := length_ne_nil _ n h17 hn
  have ne18 := length_ne_nil _ n h18 hn
  have ne19 := length_ne_nil _ n h19 hn
  have ne20 := length_ne_nil _ n h20 hn
  have ne21 := length_ne_nil _ n h21 hn
  have hnl : strL "\n" = ['\n'] := by decide
  have hemp : strL "" = [] := by decide
  rw [writeBlock]
  simp only [emitMeanQ, emitMeanZ, ne1, ne2, ne3, ne4, ne5, ne6, ne7, ne8, ne9, ne10,
    ne11, ne12, ne13, ne14, ne15, ne16, ne17, ne18, ne19, ne20, ne21, if_neg, ite_false,
    if_false]
  simp [catE, unlines, blockLines, lineZ, lineQ, hnl, hemp, List.append_assoc]

theorem takeWhile_append_stop {α : Type} (p : α → Bool) (A B : List α)
    (h : (A.takeWhile p).length < A.length) :
    (A ++ B).takeWhile p = A.takeWhile p := by
  induction A with
  | nil => simp at h
  | cons a as ih =>
    by_cases hp : p a
    · rw [List.cons_append, List.takeWhile_cons, List.takeWhile_cons, if_pos hp, if_pos hp]
      rw [List.takeWhile_cons, if_pos hp] at h
      simp only [List.length_cons] at h
      rw [ih (by omega)]
    · rw [List.cons_append, List.takeWhile_cons, List.takeWhile_cons,
        if_neg hp, if_neg hp]

theorem trailingNL_step_append (u t : Str)
    (h : trailingNLCount t = 4 ∧ 4 < t.length) :
    trailingNLCount (u ++ t) = 4 ∧ 4 < (u ++ t).length := by
  obtain ⟨h4, hlen⟩ := h
  constructor
  · unfold trailingNLCount at *
    rw [List.reverse_append]
    rw [takeWhile_append_stop _ _ _ (by rw [List.length_reverse]; omega)]
    exact h4
  · rw [List.length_append]
    omega

theorem trailingNL_step_cons (c : Char) (t : Str)
    (h : trailingNLCount t = 4 ∧ 4 < t.length) :
    trailingNLCount (c :: t) = 4 ∧ 4 < (c :: t).length :=
  trailingNL_step_append [c] t h

theorem trailingNL_base (v : Str) (hv : v ≠ []) (hnl : '\n' ∉ v) :
    trailingNLCount (v ++ ['\n', '\n', '\n', '\n']) = 4 ∧
      4 < (v ++ ['\n', '\n', '\n', '\n']).length := by
  constructor
  · unfold trailingNLCount
    rw [List.reverse_append]
    rcases hv' : v.reverse with _ | ⟨c, t⟩
    · exact absurd (by simpa using congrArg List.reverse hv') hv
    · have hc : c ∈ v := by
        rw [← List.mem_reverse, hv']
        simp
      have hcne : (c == '\n') = false := by
        simp only [beq_eq_false_iff_ne, ne_eq]
        exact fun hh => hnl (hh ▸ hc)
      simp [List.takeWhile_cons, hcne]
  · have := List.length_pos.mpr hv
    rw [List.length_append]
    simp only [List.length_cons, List.length_nil]
    omega

theorem unlines_cons (l : Str) (ls : List Str) :
    unlines (l :: ls) = l ++ '\n' :: unlines ls := rfl

theorem trailingNL_unlines_cons (l : Str) (ls : List Str)
    (h : trailingNLCount (unlines ls) = 4 ∧ 4 < (unlines ls).length) :
    trailingNLCount (unlines (l :: ls)) = 4 ∧ 4 < (unlines (l :: ls)).length := by
  rw [unlines_cons]
  exact trailingNL_step_append l _ (trailingNL_step_cons '\n' _ h)

set_option maxHeartbeats 1000000 in
/-- C3 (amended): every successfully written report block is terminated by exactly
three blank lines, not two — the block text ends in 4 consecutive newline characters
(the final content line's terminator plus three bare `f.write` newline calls), where
the claimed two blank lines would give 3. -/
theorem claim_C3 (i : ℤ) (params : List PyVal) (nbr : ℤ) (acc : Acc) (n : ℕ)
    (hacc : accLens acc n) (hn : 1 ≤ n) :
    trailingNLCount (writeBlock i params (some nbr) acc).1 = 4 := by
  rw [writeBlock_lines i params nbr acc n hacc hn]
  show trailingNLCount (unlines (blockLines i params nbr acc)) = 4
  have hnonl : '\n' ∉ reprFmt3 (pymeanZ acc.temp_antichain_optimization_nbr_calls) :=
    fun hm => (sign_set_props _ (reprFmt3_chars _ _ hm)).2.2.1 rfl
  have hbase := trailingNL_base _
    (reprFmt3_ne_nil (pymeanZ acc.temp_antichain_optimization_nbr_calls)) hnonl
  have hfin : trailingNLCount (unlines [strL "AO mean total nbr calls " ++
        reprFmt3 (pymeanZ acc.temp_antichain_optimization_nbr_calls), [], [], []]) = 4 ∧
      4 < (unlines [strL "AO mean total nbr calls " ++
        reprFmt3 (pymeanZ acc.temp_antichain_optimization_nbr_calls), [], [], []]).length := by
    rw [show unlines [strL "AO mean total nbr calls " ++
          reprFmt3 (pymeanZ acc.temp_antichain_optimization_nbr_calls), [], [], []]
        = strL "AO mean total nbr calls " ++
          (reprFmt3 (pymeanZ acc.temp_antichain_optimization_nbr_calls) ++
            ['\n', '\n', '\n', '\n']) from by simp [unlines, List.append_assoc]]
    exact trailingNL_step_append _ _ hbase
  suffices h : trailingNLCount (unlines (blockLines i params nbr acc)) = 4 ∧
      4 < (unlines (blockLines i params nbr acc)).length from h.1
  rw [blockLines]
  repeat (first
    | exact hfin
    | apply trailingNL_unlines_cons)

set_option maxHeartbeats 4000000 in
set_option maxRecDepth 10000 in
/-- C3 counterexample: the concrete block written after one successful trial is not
terminated by exactly two blank lines (its trailing newline count is 4, not the 3
that exactly two blank lines would produce). -/
theorem claim_C3_counterexample :
    ¬ trailingNLCount (writeBlock 3 [PyVal.vBool true] (some 7) accW).1 = 3 := by
  with_unfolding_all decide

set_option maxHeartbeats 4000000 in
set_option maxRecDepth 10000 in
/-- Witness for the amended C3 at a concrete accumulator. -/
theorem claim_C3_witness :
    trailingNLCount (writeBlock 3 [PyVal.vBool true] (some 7) accW).1 = 4 :=
  claim_C3 3 [PyVal.vBool true] 7 accW 1
    (by unfold accLens accW; with_unfolding_all decide) (by decide)

/-- C4 (amended): for a benchmark type outside the three supported ones, a nonzero
step, a nonempty range and at least one trial, `run_benchmark` raises
`BenchmarkNotSupportedError` on the first trial of the first value, for every
environment (no generator is consulted) and with nothing written to the report
file. With an empty range the loop body never runs, so no error is raised at all
(see the counterexample). -/
theorem claim_C4 (bt : Str) (params : List PyVal) (N : ℕ) (start stop step : ℤ)
    (env : Env)
    (hbt1 : bt ≠ strL "random") (hbt2 : bt ≠ strL "intersection_vertices")
    (hbt3 : bt ≠ strL "intersection_objectives")
    (hstep : step ≠ 0) (hne : pyRange start stop step ≠ []) (hN : 1 ≤ N) :
    runBenchmark bt params N start stop step env = ([], some Err.benchmarkNotSupported) := by
  rw [runBenchmark, if_neg hstep]
  rcases hr : pyRange start stop step with _ | ⟨i, rest⟩
  · exact absurd hr hne
  · have hgp : genPos bt params = .error .benchmarkNotSupported := by
      rw [genPos, if_neg hbt1, if_neg hbt2, if_neg hbt3]
    rcases N with _ | M
    · omega
    · have hrt : runTrial env bt params i 1 emptyAcc none =
          (emptyAcc, none, some Err.benchmarkNotSupported) := by
        rw [runTrial, hgp]
      have hrv : runValue env bt params (M + 1) i none =
          ([], none, some Err.benchmarkNotSupported) := by
        rw [runValue, runTrials, hrt]
      rw [runBenchmarkAux, hrv]

/-- C4 counterexample: an unsupported benchmark type together with an empty range
returns normally — no `BenchmarkNotSupportedError` (nor any other error) is raised,
against the claim that every unsupported specification fails. -/
theorem claim_C4_counterexample :
    runBenchmark (strL "bogus") [] 1 0 0 1 envA = ([], none) := by
  with_unfolding_all decide

/-- Witness for the amended C4 at a concrete unsupported specification with a
nonempty descending range. -/
theorem claim_C4_witness :
    runBenchmark (strL "bogus") [] 1 3 1 (-1) envA = ([], some Err.benchmarkNotSupported) :=
  claim_C4 (strL "bogus") [] 1 3 1 (-1) envA (by decide) (by decide) (by decide)
    (by decide) (by with_unfolding_all decide) (by decide)

theorem runTrial_ok (env : Env) (bt : Str) (params : List PyVal) (gp : PyVal)
    (i : ℤ) (j : ℕ) (acc : Acc) (nb : Option ℤ)
    (hgp : genPos bt params = .ok gp) (hg : TrialGood env gp i j) :
    runTrial env bt params i j acc nb =
      (appendTimesAO (env.aoElapsed i j) (appendTimesCE (env.ceElapsed i j)
        (appendStats5 (env.stats i j) (appendStats4 (env.stats i j)
          (appendStats3 (env.stats i j) (appendStats2 (env.stats i j)
            (appendStats1 (env.stats i j) acc)))))),
        some (env.nbrObjectives i j), none) := by
  obtain ⟨⟨hw1, hw2, hw3, hw4⟩, hce, hao⟩ := hg
  rw [runTrial, hgp]
  simp [hw1, hw2, hw3, hw4, hce, hao]

theorem trialAppend_lengths (st : Stats) (tce tao : ℚ × ℚ × ℚ) (acc : Acc) (n : ℕ)
    (h : accLens acc n) :
    accLens (appendTimesAO tao (appendTimesCE tce (appendStats5 st (appendStats4 st
      (appendStats3 st (appendStats2 st (appendStats1 st acc))))))) (n + 1) := by
  obtain ⟨h1, h2, h3, h4, h5, h6, h7, h8, h9, h10, h11, h12, h13, h14, h15,
    h16, h17, h18, h19, h20, h21⟩ := h
  unfold accLens appendStats1 appendStats2 appendStats3 appendStats4 appendStats5
    appendTimesCE appendTimesAO
  simp [List.length_append, h1, h2, h3, h4, h5, h6, h7, h8, h9, h10, h11, h12, h13,
    h14, h15, h16, h17, h18, h19, h20, h21]

theorem accLens_empty : accLens emptyAcc 0 := by
  unfold accLens emptyAcc
  simp

theorem runTrials_ok (env : Env) (bt : Str) (params : List PyVal) (gp : PyVal)
    (i : ℤ) (hgp : genPos bt params = .ok gp) :
    ∀ (count j : ℕ) (acc : Acc) (nb : Option ℤ) (n : ℕ),
      (∀ t, j ≤ t → t < j + count → TrialGood env gp i t) → accLens acc n →
      (runTrials env bt params i count j acc nb).2.2 = none ∧
      accLens (runTrials env bt params i count j acc nb).1 (n + count) ∧
      (1 ≤ count → (runTrials env bt params i count j acc nb).2.1 =
        some (env.nbrObjectives i (j + count - 1))) := by
  intro count
  induction count with
  | zero =>
    intro j acc nb n _ hl
    exact ⟨rfl, by simpa using hl, by omega⟩
  | succ c ih =>
    intro j acc nb n hgood hl
    have hstep := runTrial_ok env bt params gp i j acc nb hgp
      (hgood j (by omega) (by omega))
    rw [runTrials, hstep]
    have hl1 := trialAppend_lengths (env.stats i j) (env.ceElapsed i j)
      (env.aoElapsed i j) acc n hl
    have ihr := ih (j + 1) _ (some (env.nbrObjectives i j)) (n + 1)
      (fun t ht1 ht2 => hgood t (by omega) (by omega)) hl1
    refine ⟨ihr.1, by
      have h2 := ihr.2.1
      have he : n + 1 + c = n + (c + 1) := by omega
      rw [he] at h2
      exact h2, ?_⟩
    intro _
    rcases c with _ | c0
    · simp [runTrials]
    · have h3 := ihr.2.2 (by omega)
      rw [h3]
      have he : j + 1 + (c0 + 1) - 1 = j + (c0 + 1 + 1) - 1 := by omega
      rw [he]

/-- C2: for every sweep kind (any benchmark type whose positivity extraction
succeeds), after the N trials of a sweep value complete with no failure, every one
of the 21 accumulated statistic and timing series holds exactly N elements — this is
the accumulator state at the moment the means are computed and the report block is
written. -/
theorem claim_C2 (env : Env) (bt : Str) (params : List PyVal) (gp : PyVal) (i : ℤ)
    (N : ℕ) (nb : Option ℤ) (hgp : genPos bt params = .ok gp)
    (hgood : ∀ j, 1 ≤ j → j ≤ N → TrialGood env gp i j) :
    (runTrials env bt params i N 1 emptyAcc nb).2.2 = none ∧
    accLens (runTrials env bt params i N 1 emptyAcc nb).1 N := by
  obtain ⟨he, hl, _⟩ := runTrials_ok env bt params gp i hgp N 1 emptyAcc nb 0
    (fun t h1 h2 => hgood t h1 (by omega)) accLens_empty
  exact ⟨he, by simpa using hl⟩

theorem trialGoodA (i : ℤ) (j : ℕ) : TrialGood envA (PyVal.vBool true) i j := by
  refine ⟨⟨?_, ?_, ?_, ?_⟩, rfl, rfl⟩
  · show statsA.ce_calls_exists.2 ≠ []
    with_unfolding_all decide
  · show statsA.ce_calls_dominated.2 ≠ []
    with_unfolding_all decide
  · show statsA.ao_calls1.2 ≠ []
    with_unfolding_all decide
  · show statsA.ao_calls2.2 ≠ []
    with_unfolding_all decide

/-- Witness for C2 with two trials of a concrete well-behaved environment. -/
theorem claim_C2_witness :
    (runTrials envA (strL "intersection_vertices") [PyVal.vBool true] 5 2 1 emptyAcc
      none).2.2 = none ∧
    accLens (runTrials envA (strL "intersection_vertices") [PyVal.vBool true] 5 2 1
      emptyAcc none).1 2 :=
  claim_C2 envA (strL "intersection_vertices") [PyVal.vBool true] (PyVal.vBool true) 5 2
    none (by decide) (fun j _ _ => trialGoodA 5 j)

/-- C1: after each adapter returns, its boolean answer is compared with the expected
positivity; a CE mismatch aborts with `AssertionError` before any CE or AO timing
value is appended, an AO mismatch aborts after the three CE timing appends but
before any AO timing append, and when both agree the trial completes normally.
A failing trial also stops the inner loop at that point (no later trial runs) and
the sweep value's block is never written. -/
theorem claim_C1 (env : Env) (bt : Str) (params : List PyVal) (gp : PyVal) (i : ℤ)
    (j : ℕ) (acc : Acc) (nb : Option ℤ) (hgp : genPos bt params = .ok gp)
    (hwf : WFStats (env.stats i j)) :
    (pyEqBool (env.ceAnswer i j) gp = false →
      (runTrial env bt params i j acc nb).2.2 = some Err.assertionError ∧
      (runTrial env bt params i j acc nb).1.counterexample_times_process =
        acc.counterexample_times_process ∧
      (runTrial env bt params i j acc nb).1.counterexample_times_perf_counter =
        acc.counterexample_times_perf_counter ∧
      (runTrial env bt params i j acc nb).1.counterexample_times =
        acc.counterexample_times ∧
      (runTrial env bt params i j acc nb).1.antichain_optimization_times_process =
        acc.antichain_optimization_times_process ∧
      (runTrial env bt params i j acc nb).1.antichain_optimization_times_perf_counter =
        acc.antichain_optimization_times_perf_counter ∧
      (runTrial env bt params i j acc nb).1.antichain_optimization_times =
        acc.antichain_optimization_times) ∧
    (pyEqBool (env.ceAnswer i j) gp = true → pyEqBool (env.aoAnswer i j) gp = false →
      (runTrial env bt params i j acc nb).2.2 = some Err.assertionError ∧
      (runTrial env bt params i j acc nb).1.counterexample_times_process =
        acc.counterexample_times_process ++ [fmt3 (env.ceElapsed i j).1] ∧
      (runTrial env bt params i j acc nb).1.counterexample_times_perf_counter =
        acc.counterexample_times_perf_counter ++ [fmt3 (env.ceElapsed i j).2.1] ∧
      (runTrial env bt params i j acc nb).1.counterexample_times =
        acc.counterexample_times ++ [fmt3 (env.ceElapsed i j).2.2] ∧
      (runTrial env bt params i j acc nb).1.antichain_optimization_times_process =
        acc.antichain_optimization_times_process ∧
      (runTrial env bt params i j acc nb).1.antichain_optimization_times_perf_counter =
        acc.antichain_optimization_times_perf_counter ∧
      (runTrial env bt params i j acc nb).1.antichain_optimization_times =
        acc.antichain_optimization_times) ∧
    (pyEqBool (env.ceAnswer i j) gp = true → pyEqBool (env.aoAnswer i j) gp = true →
      (runTrial env bt params i j acc nb).2.2 = none) ∧
    (∀ e count, (runTrial env bt params i j acc nb).2.2 = some e →
      runTrials env bt params i (count + 1) j acc nb =
        runTrial env bt params i j acc nb) ∧
    (∀ e N, (runTrials env bt params i N 1 emptyAcc nb).2.2 = some e →
      (runValue env bt params N i nb).1 = [] ∧
      (runValue env bt params N i nb).2.2 = some e) := by
  obtain ⟨hw1, hw2, hw3, hw4⟩ := hwf
  refine ⟨?_, ?_, ?_, ?_, ?_⟩
  · intro hce
    rw [runTrial, hgp]
    simp [hw1, hw2, hw3, hw4, hce, appendStats1, appendStats2, appendStats3,
      appendStats4, appendStats5]
  · intro hce hao
    rw [runTrial, hgp]
    simp [hw1, hw2, hw3, hw4, hce, hao, appendStats1, appendStats2, appendStats3,
      appendStats4, appendStats5, appendTimesCE]
  · intro hce hao
    rw [runTrial, hgp]
    simp [hw1, hw2, hw3, hw4, hce, hao]
  · intro e count h
    rw [runTrials]
    rcases hr : runTrial env bt params i j acc nb with ⟨acc1, nb1, e1⟩
    rw [hr] at h
    simp only at h
    rw [h]
  · intro e N h
    rw [runValue]
    rcases hr : runTrials env bt params i N 1 emptyAcc nb with ⟨acc1, nb1, e1⟩
    rw [hr] at h
    simp only at h
    rw [h]
    exact ⟨rfl, rfl⟩

/-- Witness for C1: a counterexample-adapter mismatch aborts the trial with
`AssertionError` and appends no CE timing value. -/
theorem claim_C1_witness :
    (runTrial envCeBad (strL "intersection_vertices") [PyVal.vBool true] 5 1 emptyAcc
      none).2.2 = some Err.assertionError ∧
    (runTrial envCeBad (strL "intersection_vertices") [PyVal.vBool true] 5 1 emptyAcc
      none).1.counterexample_times_process = emptyAcc.counterexample_times_process := by
  have h := (claim_C1 envCeBad (strL "intersection_vertices") [PyVal.vBool true]
    (PyVal.vBool true) 5 1 emptyAcc none (by decide)
    ⟨by decide, by decide, by decide, by decide⟩).1 rfl
  exact ⟨h.1, h.2.1⟩

/-- C7: every mean chunk the report writer emits for a nonempty series is the label
followed by the decimal text of the series' arithmetic mean rounded to 3 decimal
places: the emitted text denotes exactly `round (mean l * 1000) / 1000` where
`mean l = l.sum / l.length`. -/
theorem claim_C7 (lbl tail : String) (l : List ℚ) (zl : List ℤ) (h : l ≠ [])
    (hz : zl ≠ []) :
    emitMeanQ lbl l tail = .ok (strL lbl ++ reprFmt3 (pymean l) ++ strL tail) ∧
    parseFloatQ (reprFmt3 (pymean l)) = some ((round (pymean l * 1000) : ℚ) / 1000) ∧
    pymean l = l.sum / l.length ∧
    emitMeanZ lbl zl tail = .ok (strL lbl ++ reprFmt3 (pymeanZ zl) ++ strL tail) ∧
    parseFloatQ (reprFmt3 (pymeanZ zl)) =
      some ((round (pymeanZ zl * 1000) : ℚ) / 1000) := by
  refine ⟨by rw [emitMeanQ, if_neg h], ?_, rfl, by rw [emitMeanZ, if_neg hz], ?_⟩ <;>
    rw [parseFloatQ_reprFmt3, fmt3, roundQ_eq_round]

/-- Witness for C7 at the synthetic series [1, 2, 3], whose emitted mean is 2.0. -/
theorem claim_C7_witness :
    emitMeanQ "Mean x " [1, 2, 3] "\n" =
      .ok (strL "Mean x " ++ reprFmt3 (pymean [1, 2, 3]) ++ strL "\n") ∧
    parseFloatQ (reprFmt3 (pymean [1, 2, 3])) =
      some ((round (pymean [(1 : ℚ), 2, 3] * 1000) : ℚ) / 1000) ∧
    pymean [(1 : ℚ), 2, 3] = [(1 : ℚ), 2, 3].sum / ([(1 : ℚ), 2, 3].length : ℚ) ∧
    emitMeanZ "Mean x " [4, 5] "\n" =
      .ok (strL "Mean x " ++ reprFmt3 (pymeanZ [4, 5]) ++ strL "\n") ∧
    parseFloatQ (reprFmt3 (pymeanZ [4, 5])) =
      some ((round (pymeanZ [(4 : ℤ), 5] * 1000) : ℚ) / 1000) :=
  claim_C7 "Mean x " "\n" [1, 2, 3] [4, 5] (by with_unfolding_all decide) (by decide)

theorem except_bind_error {ε α β : Type} (e : ε) (f : α → Except ε β) :
    (Except.error e : Except ε α) >>= f = .error e := rfl

theorem except_bind_ok {ε α β : Type} (a : α) (f : α → Except ε β) :
    (Except.ok a : Except ε α) >>= f = f a := rfl

theorem pyIndexNat_ok {α : Type} (l : List α) (i : ℕ) (h : i < l.length) :
    pyIndexNat l i = .ok (l.get ⟨i, h⟩) := by
  rw [pyIndexNat, List.get?_eq_get h]

theorem pyIndexNat_err {α : Type} (l : List α) (i : ℕ) (h : l.length ≤ i) :
    pyIndexNat l i = .error Err.indexError := by
  rw [pyIndexNat, List.get?_eq_none.mpr h]

theorem catLinesE_cons_ok (s : Str) (cs : List (Except Err Str)) :
    catLinesE (.ok s :: cs) = (s :: (catLinesE cs).1, (catLinesE cs).2) := rfl

theorem catLinesE_snd_none {chunks : List (Except Err Str)}
    (h : ∀ c ∈ chunks, ∃ s, c = .ok s) : (catLinesE chunks).2 = none := by
  induction chunks with
  | nil => rfl
  | cons c cs ih =>
    obtain ⟨s, hs⟩ := h c (List.mem_cons_self c cs)
    subst hs
    rw [catLinesE_cons_ok]
    exact ih (fun d hd => h d (List.mem_cons_of_mem _ hd))

theorem catLinesE_snd_err {chunks : List (Except Err Str)}
    (hex : Except.error Err.indexError ∈ chunks)
    (hall : ∀ c ∈ chunks, c = .error Err.indexError ∨ ∃ s, c = .ok s) :
    (catLinesE chunks).2 = some Err.indexError := by
  induction chunks with
  | nil => cases hex
  | cons c cs ih =>
    rcases hall c (List.mem_cons_self c cs) with hc | ⟨s, hs⟩
    · subst hc; rfl
    · subst hs
      rw [catLinesE_cons_ok]
      refine ih ?_ (fun d hd => hall d (List.mem_cons_of_mem _ hd))
      rcases List.mem_cons.mp hex with h | h
      · exact absurd h (by simp)
      · exact h

theorem except_map_ok {ε α β : Type} (f : α → β) (a : α) :
    (f <$> (Except.ok a : Except ε α)) = .ok (f a) := rfl

theorem except_map_error {ε α β : Type} (f : α → β) (e : ε) :
    (f <$> (Except.error e : Except ε α)) = .error e := rfl

theorem except_pure_eq {ε α : Type} (a : α) : (pure a : Except ε α) = .ok a := rfl

theorem pyIndexNat_error_eq {α : Type} (l : List α) (i : ℕ) (e : Err)
    (h : pyIndexNat l i = .error e) : e = Err.indexError := by
  rcases Nat.lt_or_ge i l.length with hl | hl
  · rw [pyIndexNat_ok l i hl] at h
    simp at h
  · rw [pyIndexNat_err l i hl] at h
    exact (Except.error.inj h).symm

theorem rowChunks3_mem_cases (st : ScanSt) (c : Except Err Str)
    (hc : c ∈ rowChunks3 st) : c = .error Err.indexError ∨ ∃ s, c = .ok s := by
  rw [rowChunks3] at hc
  obtain ⟨i, _, rfl⟩ := List.mem_map.mp hc
  rcases h1 : pyIndexNat st.x i with e1 | x1
  · left
    have he := pyIndexNat_error_eq st.x i e1 h1
    subst he
    simp [h1, except_bind_error]
  · rcases h2 : pyIndexNat st.y_ce i with e2 | c2
    · left
      have he := pyIndexNat_error_eq st.y_ce i e2 h2
      subst he
      simp [h1, h2, except_bind_ok, except_bind_error]
    · rcases h3 : pyIndexNat st.y_ao i with e3 | a3
      · left
        have he := pyIndexNat_error_eq st.y_ao i e3 h3
        subst he
        simp [h1, h2, h3, except_bind_ok, except_bind_error, except_map_error]
      · right
        exact ⟨reprInt x1 ++ ' ' :: (reprFloatQ c2 ++ ' ' :: reprFloatQ a3),
          by simp [h1, h2, h3, except_bind_ok, except_map_ok]⟩

/-- C5 (amended): a report line matching none of the parser's labels is skipped
silently, leaving the running series unchanged — the scan itself never raises on a
missing label and merely yields shorter series; but at the dataset write of the
intersection kinds, a CE series shorter than the x series makes the row loop raise
`IndexError` (it indexes the y-series by the x indices), so `parse_results` completes
without raising only when no y-series is shorter than x — in particular when the
missing label was `Variable value used` itself. -/
theorem claim_C5 (bt : Str) (N : ℕ) (st : ScanSt) (line : Str)
    (h1 : lblMatch (splitOnCh ' ' (pyRstrip line))
      [strL "Variable", strL "value", strL "used"] = .ok false)
    (h2 : lblMatch (splitOnCh ' ' (pyRstrip line))
      [strL "CE", strL "times", strL "process"] = .ok false)
    (h3 : lblMatch (splitOnCh ' ' (pyRstrip line))
      [strL "AO", strL "times", strL "process"] = .ok false)
    (h4 : lblMatch (splitOnCh ' ' (pyRstrip line))
      [strL "Mean", strL "running", strL "time", strL "CE"] = .ok false)
    (h5 : lblMatch (splitOnCh ' ' (pyRstrip line))
      [strL "Mean", strL "running", strL "time", strL "AO"] = .ok false) :
    scanLine bt N st line = .ok st ∧
    (st.y_ce.length < st.x.length →
      (catLinesE (rowChunks3 st)).2 = some Err.indexError) ∧
    (st.x.length ≤ st.y_ce.length → st.x.length ≤ st.y_ao.length →
      (catLinesE (rowChunks3 st)).2 = none) := by
  refine ⟨?_, ?_, ?_⟩
  · rw [scanLine]
    simp only [h1, h2, h3, h4, h5, except_bind_ok, Bool.false_eq_true, if_false]
    by_cases hbt : bt = strL "random" <;>
      simp [hbt, h4, h5, except_bind_ok, except_pure_eq]
  · intro hlt
    apply catLinesE_snd_err
    · rw [rowChunks3]
      refine List.mem_map.mpr ⟨st.y_ce.length, List.mem_range.mpr hlt, ?_⟩
      rw [pyIndexNat_ok st.x st.y_ce.length hlt,
        pyIndexNat_err st.y_ce st.y_ce.length le_rfl]
      simp [except_bind_ok, except_bind_error]
    · exact fun c hc => rowChunks3_mem_cases st c hc
  · intro hce hao
    apply catLinesE_snd_none
    intro c hc
    rw [rowChunks3] at hc
    obtain ⟨i, hi, rfl⟩ := List.mem_map.mp hc
    have hix : i < st.x.length := List.mem_range.mp hi
    have hic : i < st.y_ce.length := by omega
    have hia : i < st.y_ao.length := by omega
    refine ⟨reprInt (st.x.get ⟨i, hix⟩) ++ ' ' ::
      (reprFloatQ (st.y_ce.get ⟨i, hic⟩) ++ ' ' :: reprFloatQ (st.y_ao.get ⟨i, hia⟩)), ?_⟩
    rw [pyIndexNat_ok st.x i hix, pyIndexNat_ok st.y_ce i hic,
      pyIndexNat_ok st.y_ao i hia]
    simp [except_bind_ok, except_pure_eq]

set_option maxRecDepth 40000 in
set_option maxHeartbeats 2000000 in
/-- C5 as stated is refuted: a report whose block lacks the `CE times process` line
(but has the other labels) makes `parse_results` raise `IndexError` at the dataset
write instead of completing with a shorter series. -/
theorem claim_C5_counterexample :
    parseResults [strL "Variable value used 3", strL "AO times process [0.017]"]
      (strL "intersection_vertices") 1 =
      ([strL "nbr_vertices CE_time AO_time"], some Err.indexError) := by
  with_unfolding_all decide

/-- Witness for the amended C5: a line matching no label leaves the scan state
unchanged, and the concrete state with a 1-short CE series raises `IndexError` at the
write while the balanced state writes all rows without raising. -/
theorem claim_C5_witness :
    scanLine (strL "intersection_vertices") 1
      { x := [3], y_ce := [], y_ao := [17/1000] } (strL "Nbr objectives 7") =
      .ok { x := [3], y_ce := [], y_ao := [17/1000] } ∧
    (catLinesE (rowChunks3 { x := [3], y_ce := [], y_ao := [17/1000] })).2 =
      some Err.indexError := by
  have h := claim_C5 (strL "intersection_vertices") 1
    { x := [3], y_ce := [], y_ao := [17/1000] } (strL "Nbr objectives 7")
    (by with_unfolding_all decide) (by with_unfolding_all decide)
    (by with_unfolding_all decide) (by with_unfolding_all decide)
    (by with_unfolding_all decide)
  exact ⟨h.1, h.2.1 (by decide)⟩

theorem except_throw_eq {ε α : Type} (e : ε) : (throw e : Except ε α) = .error e := rfl

theorem exOk_exists {ε α : Type} (x : Except ε α) (h : exOk x = true) :
    ∃ a, x = .ok a := by
  rcases x with e | a
  · simp [exOk] at h
  · exact ⟨a, rfl⟩

theorem pyIndexI_ofNat {α : Type} (l : List α) (k : ℕ) :
    pyIndexI l (k : ℤ) = pyIndexNat l k := by
  rw [pyIndexI, if_pos (by omega : (0 : ℤ) ≤ (k : ℤ))]
  simp

theorem catE_cons_ok (s : Str) (cs : List (Except Err Str)) :
    catE (.ok s :: cs) = (s ++ (catE cs).1, (catE cs).2) := rfl

theorem catE_snd_none {chunks : List (Except Err Str)}
    (h : ∀ c ∈ chunks, ∃ s, c = .ok s) : (catE chunks).2 = none := by
  induction chunks with
  | nil => rfl
  | cons c cs ih =>
    obtain ⟨s, hs⟩ := h c (List.mem_cons_self c cs)
    subst hs
    rw [catE_cons_ok]
    exact ih (fun d hd => h d (List.mem_cons_of_mem _ hd))

theorem catE_snd_err (e : Err) {chunks : List (Except Err Str)}
    (hex : Except.error e ∈ chunks)
    (hall : ∀ c ∈ chunks, c = .error e ∨ ∃ s, c = .ok s) :
    (catE chunks).2 = some e := by
  induction chunks with
  | nil => cases hex
  | cons c cs ih =>
    rcases hall c (List.mem_cons_self c cs) with hc | ⟨s, hs⟩
    · subst hc; rfl
    · subst hs
      rw [catE_cons_ok]
      refine ih ?_ (fun d hd => hall d (List.mem_cons_of_mem _ hd))
      rcases List.mem_cons.mp hex with h | h
      · exact absurd h (by simp)
      · exact h

theorem pyIndexI_last {α : Type} (l : List α) (h : 1 ≤ l.length) :
    pyIndexI l ((l.length : ℤ) - 1) = .ok (l.get ⟨l.length - 1, by omega⟩) := by
  have hidx : ((l.length : ℤ) - 1) = ((l.length - 1 : ℕ) : ℤ) := by omega
  rw [hidx, pyIndexI_ofNat, pyIndexNat_ok l (l.length - 1) (by omega)]

theorem ratioChunk_zero (losing realizable : List Str) (k : ℕ) (tail : String)
    (hk : k < losing.length) (hkr : k < realizable.length)
    (hlq : exOk (pyFloatOfStr (losing.get ⟨k, hk⟩)) = true)
    (hrq : pyFloatOfStr (realizable.get ⟨k, hkr⟩) = .ok 0) :
    ratioChunk losing realizable (k : ℤ) tail = .error Err.zeroDivisionError := by
  obtain ⟨lq, hlv⟩ := exOk_exists _ hlq
  simp only [List.get_eq_getElem] at hlv hrq
  rw [ratioChunk, pyIndexI_ofNat, pyIndexNat_ok losing k hk]
  simp [except_bind_ok, hlv, pyIndexI_ofNat realizable,
    pyIndexNat_ok realizable k hkr, hrq, except_throw_eq]

theorem ratioChunk_cases (losing realizable : List Str) (k : ℕ) (tail : String)
    (hk : k < losing.length) (hkr : k < realizable.length)
    (hlq : exOk (pyFloatOfStr (losing.get ⟨k, hk⟩)) = true)
    (hrq : exOk (pyFloatOfStr (realizable.get ⟨k, hkr⟩)) = true) :
    ratioChunk losing realizable (k : ℤ) tail = .error Err.zeroDivisionError ∨
    ∃ s, ratioChunk losing realizable (k : ℤ) tail = .ok s := by
  obtain ⟨lq, hlv⟩ := exOk_exists _ hlq
  obtain ⟨rq, hrv⟩ := exOk_exists _ hrq
  simp only [List.get_eq_getElem] at hlv hrv
  by_cases h0 : rq = 0
  · left
    subst h0
    rw [ratioChunk, pyIndexI_ofNat, pyIndexNat_ok losing k hk]
    simp [except_bind_ok, hlv, pyIndexI_ofNat realizable,
      pyIndexNat_ok realizable k hkr, hrv, except_throw_eq]
  · right
    refine ⟨reprFmt3 (lq / rq) ++ strL tail, ?_⟩
    rw [ratioChunk, pyIndexI_ofNat, pyIndexNat_ok losing k hk]
    simp [except_bind_ok, hlv, pyIndexI_ofNat realizable,
      pyIndexNat_ok realizable k hkr, hrv, h0, except_throw_eq, except_pure_eq]

theorem headerRowChunks_mem_ok (n : ℕ) (c : Except Err Str)
    (hc : c ∈ headerRowChunks n) : ∃ s, c = .ok s := by
  rw [headerRowChunks] at hc
  rcases List.mem_cons.mp hc with rfl | hc1
  · exact ⟨_, rfl⟩
  rcases List.mem_append.mp hc1 with hc2 | hc3
  · obtain ⟨i, _, rfl⟩ := List.mem_map.mp hc2
    exact ⟨_, rfl⟩
  · rw [List.mem_singleton] at hc3
    subst hc3
    exact ⟨_, rfl⟩

theorem seriesRowChunks_mem_ok (name : String) (l : List Str) (hne : l ≠ [])
    (c : Except Err Str) (hc : c ∈ seriesRowChunks name l) : ∃ s, c = .ok s := by
  have hL : 1 ≤ l.length := List.length_pos.mpr hne
  rw [seriesRowChunks] at hc
  rcases List.mem_cons.mp hc with rfl | hc1
  · exact ⟨_, rfl⟩
  rcases List.mem_append.mp hc1 with hc2 | hc3
  · obtain ⟨i, hi, rfl⟩ := List.mem_map.mp hc2
    have hiL : i < l.length := by
      have := List.mem_range.mp hi
      omega
    refine ⟨pyStrip (l.get ⟨i, hiL⟩) ++ strL " &  ", ?_⟩
    rw [pyIndexNat_ok l i hiL]
    simp [except_bind_ok, except_pure_eq]
  · rw [List.mem_singleton] at hc3
    subst hc3
    refine ⟨pyStrip (l.get ⟨l.length - 1, by omega⟩) ++ strL " \\\\\n", ?_⟩
    rw [pyIndexI_last l hL]
    simp [except_bind_ok, except_pure_eq]

set_option maxHeartbeats 1000000 in
/-- C10: the ratio row of `generate_tables` has no zero guard: whenever the extracted
`Mean number realizable payoffs` series contains an entry denoting 0 (and the other
extracted series are wellformed: the three displayed series are nonempty, the losing
series is at least as long as the realizable one, and every losing/realizable entry
parses as a float), `generate_tables` raises `ZeroDivisionError` while computing the
losing-to-realizable ratio instead of printing the table. -/
theorem claim_C10 (lines : List Str)
    (hmas : (extractSeries lines (strL "Mean antichain size")).reverse ≠ [])
    (hcem : (extractSeries lines (strL "CE mean antichain size")).reverse ≠ [])
    (haom : (extractSeries lines (strL "AO mean antichain size")).reverse ≠ [])
    (hlen : (extractSeries lines (strL "Mean number realizable payoffs")).length ≤
      (extractSeries lines (strL "Mean number losing payoffs")).length)
    (hlp : ∀ s ∈ (extractSeries lines (strL "Mean number losing payoffs")).reverse,
      exOk (pyFloatOfStr s) = true)
    (hrp : ∀ s ∈ (extractSeries lines (strL "Mean number realizable payoffs")).reverse,
      exOk (pyFloatOfStr s) = true)
    (hz : ∃ s ∈ (extractSeries lines (strL "Mean number realizable payoffs")).reverse,
      pyFloatOfStr s = .ok 0) :
    (generateTables lines).2 = some Err.zeroDivisionError := by
  obtain ⟨s0, hs0mem, hs0⟩ := hz
  obtain ⟨k, hk, hs0get⟩ := List.mem_iff_getElem.mp hs0mem
  rw [generateTables]
  set mlp := (extractSeries lines (strL "Mean number losing payoffs")).reverse with hmlp
  set mrp := (extractSeries lines (strL "Mean number realizable payoffs")).reverse
    with hmrp
  have hlen2 : mrp.length ≤ mlp.length := by
    rw [hmlp, hmrp, List.length_reverse, List.length_reverse]
    exact hlen
  have hn1 : 1 ≤ mrp.length := List.length_pos.mpr (List.ne_nil_of_mem hs0mem)
  have hzchunk : ∀ tail, ratioChunk mlp mrp (k : ℤ) tail =
      .error Err.zeroDivisionError := by
    intro tail
    refine ratioChunk_zero mlp mrp k tail (by omega) hk
      (hlp _ (List.get_mem mlp k (by omega))) ?_
    simp only [List.get_eq_getElem]
    rw [hs0get]
    exact hs0
  apply catE_snd_err
  · refine List.mem_append.mpr (Or.inr ?_)
    refine List.mem_cons.mpr (Or.inr ?_)
    refine List.mem_append.mpr ?_
    rcases Nat.lt_or_ge k (mrp.length - 1) with hklt | hkge
    · exact Or.inl (List.mem_map.mpr ⟨k, List.mem_range.mpr hklt, hzchunk " &  "⟩)
    · refine Or.inr (List.mem_singleton.mpr ?_)
      have hkeq : ((mrp.length : ℤ) - 1) = (k : ℤ) := by omega
      rw [hkeq]
      exact (hzchunk " \\\\\n").symm
  · intro c hc
    rcases List.mem_append.mp hc with hL1 | hR
    · rcases List.mem_append.mp hL1 with hL2 | h3
      · rcases List.mem_append.mp hL2 with hL3 | h2
        · rcases List.mem_append.mp hL3 with h0 | h1
          · exact Or.inr (headerRowChunks_mem_ok _ c h0)
          · exact Or.inr (seriesRowChunks_mem_ok _ _ hmas c h1)
        · exact Or.inr (seriesRowChunks_mem_ok _ _ hcem c h2)
      · exact Or.inr (seriesRowChunks_mem_ok _ _ haom c h3)
    rcases List.mem_cons.mp hR with rfl | hc5
    · exact Or.inr ⟨_, rfl⟩
    rcases List.mem_append.mp hc5 with h5 | h6
    · obtain ⟨i, hi, rfl⟩ := List.mem_map.mp h5
      have hiN : i < mrp.length := by
        have := List.mem_range.mp hi
        omega
      exact ratioChunk_cases mlp mrp i " &  " (by omega) hiN
        (hlp _ (List.get_mem mlp i (by omega)))
        (hrp _ (List.get_mem mrp i hiN))
    · rw [List.mem_singleton] at h6
      subst h6
      have hkeq : ((mrp.length : ℤ) - 1) = ((mrp.length - 1 : ℕ) : ℤ) := by omega
      rw [hkeq]
      exact ratioChunk_cases mlp mrp (mrp.length - 1) " \\\\\n" (by omega) (by omega)
        (hlp _ (List.get_mem mlp (mrp.length - 1) (by omega)))
        (hrp _ (List.get_mem mrp (mrp.length - 1) (by omega)))

set_option maxRecDepth 40000 in
set_option maxHeartbeats 2000000 in
/-- Witness for C10: a concrete report whose realizable-payoffs mean is `0.000`
makes the table generator fail with `ZeroDivisionError`. -/
theorem claim_C10_witness :
    (generateTables [strL "Mean antichain size 2.000",
      strL "CE mean antichain size 2.000", strL "AO mean antichain size 2.000",
      strL "Mean number losing payoffs 1.000",
      strL "Mean number realizable payoffs 0.000"]).2 =
      some Err.zeroDivisionError :=
  claim_C10 [strL "Mean antichain size 2.000", strL "CE mean antichain size 2.000",
      strL "AO mean antichain size 2.000", strL "Mean number losing payoffs 1.000",
      strL "Mean number realizable payoffs 0.000"]
    (by with_unfolding_all decide) (by with_unfolding_all decide)
    (by with_unfolding_all decide) (by with_unfolding_all decide)
    (by with_unfolding_all decide) (by with_unfolding_all decide)
    (by with_unfolding_all decide)

theorem lblMatch_nil (ts : List Str) : lblMatch ts [] = .ok true := by
  cases ts <;> rfl

theorem fmt3_mul_den (q : ℚ) : (fmt3 q * 1000).den = 1 := by
  rw [fmt3, div_mul_cancel₀ _ (by norm_num : (1000 : ℚ) ≠ 0)]
  exact Rat.den_intCast _

theorem reprInt_chars (n : ℤ) : ∀ c ∈ reprInt n, c ∈ strL "-.0123456789*" := by
  intro c hc
  rw [reprInt] at hc
  split_ifs at hc
  · rcases List.mem_cons.mp hc with rfl | h2
    · decide
    · exact digit_subset_sign _ (reprNat_chars _ _ h2)
  · exact digit_subset_sign _ (reprNat_chars _ _ hc)

theorem noNL_of_signchars (s : Str) (h : ∀ c ∈ s, c ∈ strL "-.0123456789*") :
    '\n' ∉ s :=
  fun hm => absurd (h _ hm) (by decide)

theorem noNL_joinCS (l : List Str) (h : ∀ t ∈ l, '\n' ∉ t) : '\n' ∉ joinCS l := by
  induction l with
  | nil => simp [joinCS]
  | cons t ts ih =>
    rcases ts with _ | ⟨u, us⟩
    · exact h t (List.mem_cons_self t [])
    · rw [show joinCS (t :: u :: us) = t ++ ',' :: ' ' :: joinCS (u :: us) from rfl]
      intro hm
      rcases List.mem_append.mp hm with h1 | h2
      · exact h t (List.mem_cons_self _ _) h1
      · rcases List.mem_cons.mp h2 with he | h3
        · cases he
        · rcases List.mem_cons.mp h3 with he | h4
          · cases he
          · exact ih (fun v hv => h v (List.mem_cons_of_mem _ hv)) h4

theorem noNL_reprFloatQ (q : ℚ) : '\n' ∉ reprFloatQ q :=
  noNL_of_signchars _ (reprFloatQ_chars q)

theorem noNL_reprInt (n : ℤ) : '\n' ∉ reprInt n :=
  noNL_of_signchars _ (reprInt_chars n)

theorem noNL_reprFmt3 (q : ℚ) : '\n' ∉ reprFmt3 q :=
  noNL_of_signchars _ (reprFmt3_chars q)

theorem noNL_bracketed (X : Str) (h : '\n' ∉ X) : '\n' ∉ '[' :: X ++ [']'] := by
  intro hm
  rcases List.mem_cons.mp hm with he | h2
  · cases he
  · rcases List.mem_append.mp h2 with h3 | h4
    · exact h h3
    · rcases List.mem_singleton.mp h4 with he
      cases he

theorem noNL_reprFloatList (l : List ℚ) : '\n' ∉ reprFloatList l := by
  rw [reprFloatList]
  refine noNL_bracketed _ (noNL_joinCS _ ?_)
  intro t ht
  obtain ⟨q, _, rfl⟩ := List.mem_map.mp ht
  exact noNL_reprFloatQ q

theorem noNL_reprIntList (l : List ℤ) : '\n' ∉ reprIntList l := by
  rw [reprIntList]
  refine noNL_bracketed _ (noNL_joinCS _ ?_)
  intro t ht
  obtain ⟨n, _, rfl⟩ := List.mem_map.mp ht
  exact noNL_reprInt n

theorem noNL_reprPyVal (v : PyVal) : '\n' ∉ reprPyVal v := by
  rcases v with b | n | q
  · rcases b <;> decide
  · exact noNL_reprInt n
  · exact noNL_reprFloatQ q

theorem noNL_reprPyValList (l : List PyVal) : '\n' ∉ reprPyValList l := by
  rw [reprPyValList]
  refine noNL_bracketed _ (noNL_joinCS _ ?_)
  intro t ht
  obtain ⟨v, _, rfl⟩ := List.mem_map.mp ht
  exact noNL_reprPyVal v

theorem noNL_append (a b : Str) (ha : '\n' ∉ a) (hb : '\n' ∉ b) : '\n' ∉ a ++ b := by
  intro hm
  rcases List.mem_append.mp hm with h | h
  · exact ha h
  · exact hb h

theorem getLast?_mem_of (s : Str) (c : Char) (h : s.getLast? = some c) : c ∈ s := by
  induction s with
  | nil => cases h
  | cons x xs ih =>
    rcases xs with _ | ⟨y, ys⟩
    · rw [List.getLast?_singleton] at h
      rw [Option.some_inj] at h
      simp [h]
    · rw [List.getLast?_cons_cons] at h
      exact List.mem_cons_of_mem x (ih h)

theorem getLast?_append_right {α : Type} (A s : List α) (h : s ≠ []) :
    (A ++ s).getLast? = s.getLast? := by
  induction A with
  | nil => rfl
  | cons a as ih =>
    rcases has : as ++ s with _ | ⟨b, t⟩
    · rcases List.append_eq_nil.mp has with ⟨_, hs⟩
      exact absurd hs h
    · rw [List.cons_append, has, List.getLast?_cons_cons, ← has, ih]

theorem pyRstrip_append_last (A s : Str) (hne : s ≠ [])
    (hchars : ∀ c ∈ s, c ∈ strL "-.0123456789*") : pyRstrip (A ++ s) = A ++ s := by
  have hw : ∀ c ∈ strL "-.0123456789*", isPyWS c = false := by decide
  rcases hg : s.getLast? with _ | c
  · rw [List.getLast?_eq_none_iff] at hg
    exact absurd hg hne
  · have hgA : (A ++ s).getLast? = some c := by rw [getLast?_append_right A s hne, hg]
    exact pyRstrip_eq_self _ c hgA (hw c (hchars c (getLast?_mem_of s c hg)))

theorem getLast?_append_reprIntList (A : Str) (l : List ℤ) :
    (A ++ reprIntList l).getLast? = some ']' := by
  rw [reprIntList, ← List.append_assoc]
  exact List.getLast?_concat _

theorem getLast?_append_reprPyValList (A : Str) (l : List PyVal) :
    (A ++ reprPyValList l).getLast? = some ']' := by
  rw [reprPyValList, ← List.append_assoc]
  exact List.getLast?_concat _

theorem pyRstrip_append_reprIntList (A : Str) (l : List ℤ) :
    pyRstrip (A ++ reprIntList l) = A ++ reprIntList l :=
  pyRstrip_eq_self _ ']' (getLast?_append_reprIntList A l) (by decide)

theorem pyRstrip_append_reprFloatList (A : Str) (l : List ℚ) :
    pyRstrip (A ++ reprFloatList l) = A ++ reprFloatList l :=
  pyRstrip_eq_self _ ']' (getLast?_append_reprFloatList A l) (by decide)

theorem pyRstrip_append_reprPyValList (A : Str) (l : List PyVal) :
    pyRstrip (A ++ reprPyValList l) = A ++ reprPyValList l :=
  pyRstrip_eq_self _ ']' (getLast?_append_reprPyValList A l) (by decide)

theorem unlines_append (a b : List Str) : unlines (a ++ b) = unlines a ++ unlines b := by
  induction a with
  | nil => rfl
  | cons l ls ih =>
    rw [List.cons_append, unlines_cons, unlines_cons, ih, List.append_assoc]
    rfl

theorem unlines_ne_nil (l : Str) (ls : List Str) : unlines (l :: ls) ≠ [] := by
  simp [unlines_cons]

theorem splitNL_unlines (ls : List Str) (h : ∀ l ∈ ls, '\n' ∉ l) :
    splitOnCh '\n' (unlines ls) = ls ++ [[]] := by
  induction ls with
  | nil => rfl
  | cons l ls ih =>
    rw [unlines_cons, splitOnCh_append_cons _ _ _ (h l (List.mem_cons_self l ls)),
      ih (fun m hm => h m (List.mem_cons_of_mem _ hm)), List.cons_append]

theorem getLast?_unlines (ls : List Str) (hne : ls ≠ []) :
    (unlines ls).getLast? = some '\n' := by
  induction ls with
  | nil => exact absurd rfl hne
  | cons l ls ih =>
    rw [unlines_cons]
    rcases ls with _ | ⟨m, ms⟩
    · exact List.getLast?_concat _
    · have ihv := ih (by simp)
      rw [getLast?_append_right l _ (by simp)]
      rcases he : unlines (m :: ms) with _ | ⟨c, cs⟩
      · exact absurd he (unlines_ne_nil m ms)
      · rw [he] at ihv
        rw [List.getLast?_cons_cons]
        exact ihv

theorem fileLines_unlines (ls : List Str) (hne : ls ≠ [])
    (h : ∀ l ∈ ls, '\n' ∉ l) : fileLines (unlines ls) = ls := by
  have hg := getLast?_unlines ls hne
  have hs := splitNL_unlines ls h
  rcases hu : unlines ls with _ | ⟨c, cs⟩
  · rcases ls with _ | ⟨l, ls⟩
    · exact absurd rfl hne
    · exact absurd hu (unlines_ne_nil _ _)
  · rw [hu] at hg hs
    rw [fileLines, hg, if_pos rfl, hs, List.dropLast_concat]
    simp

theorem noSpace_of_signchars (s : Str) (h : ∀ c ∈ s, c ∈ strL "-.0123456789*") :
    ' ' ∉ s :=
  fun hm => absurd (h _ hm) (by decide)

theorem reprInt_ne_nil (n : ℤ) : reprInt n ≠ [] := by
  rw [reprInt]
  split_ifs
  · simp
  · exact reprNat_ne_nil _

theorem scanLine_skip (bt : Str) (N : ℕ) (st : ScanSt) (line : Str)
    (hbt : bt ≠ strL "random")
    (h1 : lblMatch (splitOnCh ' ' (pyRstrip line))
      [strL "Variable", strL "value", strL "used"] = .ok false)
    (h2 : lblMatch (splitOnCh ' ' (pyRstrip line))
      [strL "CE", strL "times", strL "process"] = .ok false)
    (h3 : lblMatch (splitOnCh ' ' (pyRstrip line))
      [strL "AO", strL "times", strL "process"] = .ok false) :
    scanLine bt N st line = .ok st := by
  rw [scanLine]
  simp [h1, h2, h3, hbt, except_bind_ok, except_pure_eq]

theorem scanLine_skip_lbl1 (bt : Str) (N : ℕ) (st : ScanSt) (line : Str)
    (w1 : String) (rest : Str) (hbt : bt ≠ strL "random")
    (hline : line = strL w1 ++ ' ' :: rest)
    (hw : ' ' ∉ strL w1)
    (hrs : pyRstrip line = line)
    (h1 : strL w1 ≠ strL "Variable") (h2 : strL w1 ≠ strL "CE")
    (h3 : strL w1 ≠ strL "AO") :
    scanLine bt N st line = .ok st := by
  refine scanLine_skip bt N st line hbt ?_ ?_ ?_ <;>
    rw [hrs, hline, splitOnCh_append_cons _ _ _ hw]
  · exact lblMatch_ne_first _ _ _ _ h1
  · exact lblMatch_ne_first _ _ _ _ h2
  · exact lblMatch_ne_first _ _ _ _ h3

theorem scanLine_skip_lbl2 (bt : Str) (N : ℕ) (st : ScanSt) (line : Str)
    (w1 w2 : String) (rest : Str) (hbt : bt ≠ strL "random")
    (hline : line = strL w1 ++ ' ' :: (strL w2 ++ ' ' :: rest))
    (hw1 : ' ' ∉ strL w1) (hw2 : ' ' ∉ strL w2)
    (hrs : pyRstrip line = line)
    (h1 : strL w1 ≠ strL "Variable") (h2 : strL w2 ≠ strL "times") :
    scanLine bt N st line = .ok st := by
  refine scanLine_skip bt N st line hbt ?_ ?_ ?_ <;>
    rw [hrs, hline, splitOnCh_append_cons _ _ _ hw1, splitOnCh_append_cons _ _ _ hw2]
  · exact lblMatch_ne_first _ _ _ _ h1
  · by_cases hce : strL w1 = strL "CE"
    · rw [hce, lblMatch_cons_eq]
      exact lblMatch_ne_first _ _ _ _ h2
    · exact lblMatch_ne_first _ _ _ _ hce
  · by_cases hao : strL w1 = strL "AO"
    · rw [hao, lblMatch_cons_eq]
      exact lblMatch_ne_first _ _ _ _ h2
    · exact lblMatch_ne_first _ _ _ _ hao

theorem scanLine_skip_lbl3 (bt : Str) (N : ℕ) (st : ScanSt) (line : Str)
    (w1 w2 w3 : String) (rest : Str) (hbt : bt ≠ strL "random")
    (hline : line = strL w1 ++ ' ' :: (strL w2 ++ ' ' :: (strL w3 ++ ' ' :: rest)))
    (hw1 : ' ' ∉ strL w1) (hw2 : ' ' ∉ strL w2) (hw3 : ' ' ∉ strL w3)
    (hrs : pyRstrip line = line)
    (h1 : strL w1 ≠ strL "Variable") (h3 : strL w3 ≠ strL "process") :
    scanLine bt N st line = .ok st := by
  refine scanLine_skip bt N st line hbt ?_ ?_ ?_ <;>
    rw [hrs, hline, splitOnCh_append_cons _ _ _ hw1, splitOnCh_append_cons _ _ _ hw2,
      splitOnCh_append_cons _ _ _ hw3]
  · exact lblMatch_ne_first _ _ _ _ h1
  · by_cases hce : strL w1 = strL "CE"
    · rw [hce, lblMatch_cons_eq]
      by_cases ht : strL w2 = strL "times"
      · rw [ht, lblMatch_cons_eq]
        exact lblMatch_ne_first _ _ _ _ h3
      · exact lblMatch_ne_first _ _ _ _ ht
    · exact lblMatch_ne_first _ _ _ _ hce
  · by_cases hao : strL w1 = strL "AO"
    · rw [hao, lblMatch_cons_eq]
      by_cases ht : strL w2 = strL "times"
      · rw [ht, lblMatch_cons_eq]
        exact lblMatch_ne_first _ _ _ _ h3
      · exact lblMatch_ne_first _ _ _ _ ht
    · exact lblMatch_ne_first _ _ _ _ hao

theorem scanLine_skip_times_list (bt : Str) (N : ℕ) (st : ScanSt) (line : Str)
    (w1 : String) (l : List ℚ) (hbt : bt ≠ strL "random")
    (hline : line = strL w1 ++ ' ' :: (strL "times" ++ ' ' :: reprFloatList l))
    (hw1 : ' ' ∉ strL w1)
    (hrs : pyRstrip line = line)
    (h1 : strL w1 ≠ strL "Variable") :
    scanLine bt N st line = .ok st := by
  obtain ⟨t, ts, hsp⟩ := splitOnCh_head_cons ' ' '[' (joinCS (l.map reprFloatQ) ++ [']'])
    (by decide)
  have hpr : ('[' :: t) ≠ strL "process" := by
    rw [show strL "process" = 'p' :: strL "rocess" from by decide]
    intro h
    injection h with h1 _
    exact absurd h1 (by decide)
  refine scanLine_skip bt N st line hbt ?_ ?_ ?_ <;>
    rw [hrs, hline, splitOnCh_append_cons _ _ _ hw1,
      splitOnCh_append_cons _ _ _ (by decide : ' ' ∉ strL "times"),
      show reprFloatList l = '[' :: joinCS (l.map reprFloatQ) ++ [']'] from rfl,
      List.cons_append, hsp]
  · exact lblMatch_ne_first _ _ _ _ h1
  · by_cases hce : strL w1 = strL "CE"
    · rw [hce, lblMatch_cons_eq, lblMatch_cons_eq]
      exact lblMatch_ne_first _ _ _ _ hpr
    · exact lblMatch_ne_first _ _ _ _ hce
  · by_cases hao : strL w1 = strL "AO"
    · rw [hao, lblMatch_cons_eq, lblMatch_cons_eq]
      exact lblMatch_ne_first _ _ _ _ hpr
    · exact lblMatch_ne_first _ _ _ _ hao

theorem scanLine_blank (bt : Str) (N : ℕ) (st : ScanSt) (hbt : bt ≠ strL "random") :
    scanLine bt N st [] = .ok st := by
  refine scanLine_skip bt N st [] hbt ?_ ?_ ?_ <;>
  · rw [show pyRstrip [] = [] from rfl, show splitOnCh ' ' [] = [[]] from rfl]
    exact lblMatch_ne_first _ _ _ _ (by decide)

theorem variableAppends_iv (i : ℤ) :
    variableAppends (strL "intersection_vertices") 1 i = [i] := by
  rw [variableAppends, show List.range 1 = [0] from rfl, List.foldl_cons, List.foldl_nil]
  rw [if_pos rfl, if_neg (by decide), if_neg (by decide)]
  simp

theorem scanLine_var (st : ScanSt) (i : ℤ) :
    scanLine (strL "intersection_vertices") 1 st
      (strL "Variable value used " ++ reprInt i) =
      .ok { st with x := st.x ++ [i] } := by
  have hsp : ' ' ∉ reprInt i := noSpace_of_signchars _ (reprInt_chars i)
  have hrs := pyRstrip_append_last (strL "Variable value used ") (reprInt i)
    (reprInt_ne_nil i) (reprInt_chars i)
  have htoks : splitOnCh ' ' (pyRstrip (strL "Variable value used " ++ reprInt i)) =
      [strL "Variable", strL "value", strL "used", reprInt i] := by
    rw [hrs, split_three_tokens "Variable value used " "Variable" "value" "used" _
      (by decide) (by decide) (by decide) (by decide), splitOnCh_single _ _ hsp]
  have hv : lblMatch [strL "Variable", strL "value", strL "used", reprInt i]
      [strL "Variable", strL "value", strL "used"] = .ok true := by
    rw [lblMatch_cons_eq, lblMatch_cons_eq, lblMatch_cons_eq, lblMatch_nil]
  have hc : lblMatch [strL "Variable", strL "value", strL "used", reprInt i]
      [strL "CE", strL "times", strL "process"] = .ok false :=
    lblMatch_ne_first _ _ _ _ (by decide)
  have ha : lblMatch [strL "Variable", strL "value", strL "used", reprInt i]
      [strL "AO", strL "times", strL "process"] = .ok false :=
    lblMatch_ne_first _ _ _ _ (by decide)
  have hidx : pyIndexNat [strL "Variable", strL "value", strL "used", reprInt i] 3 =
      .ok (reprInt i) := rfl
  have hbt : ¬ (strL "intersection_vertices" = strL "random") := by decide
  rw [scanLine]
  simp [htoks, hv, hc, ha, hidx, parseIntStr_reprInt, hbt, except_bind_ok,
    except_pure_eq, variableAppends_iv]

theorem scanLine_ce (st : ScanSt) (q : ℚ) (hq : q.den ∣ 10 ^ 40) :
    scanLine (strL "intersection_vertices") 1 st
      (strL "CE times process " ++ reprFloatList [q]) =
      .ok { st with y_ce := st.y_ce ++ [q] } := by
  have hsp : ' ' ∉ reprFloatList [q] := by
    rw [show reprFloatList [q] = '[' :: reprFloatQ q ++ [']'] from rfl]
    intro hm
    rcases List.mem_cons.mp hm with he | h2
    · cases he
    · rcases List.mem_append.mp h2 with h3 | h4
      · exact noSpace_of_signchars _ (reprFloatQ_chars q) h3
      · rcases List.mem_singleton.mp h4 with he
        cases he
  have hrs := pyRstrip_append_reprFloatList (strL "CE times process ") [q]
  have htoks : splitOnCh ' ' (pyRstrip (strL "CE times process " ++ reprFloatList [q])) =
      [strL "CE", strL "times", strL "process", reprFloatList [q]] := by
    rw [hrs, split_three_tokens "CE times process " "CE" "times" "process" _
      (by decide) (by decide) (by decide) (by decide), splitOnCh_single _ _ hsp]
  have hv : lblMatch [strL "CE", strL "times", strL "process", reprFloatList [q]]
      [strL "Variable", strL "value", strL "used"] = .ok false :=
    lblMatch_ne_first _ _ _ _ (by decide)
  have hc : lblMatch [strL "CE", strL "times", strL "process", reprFloatList [q]]
      [strL "CE", strL "times", strL "process"] = .ok true := by
    rw [lblMatch_cons_eq, lblMatch_cons_eq, lblMatch_cons_eq, lblMatch_nil]
  have ha : lblMatch [strL "CE", strL "times", strL "process", reprFloatList [q]]
      [strL "AO", strL "times", strL "process"] = .ok false :=
    lblMatch_ne_first _ _ _ _ (by decide)
  have hjoin : joinOnCh ' ' [reprFloatList [q]] = reprFloatList [q] := rfl
  have hlit : pyLiteralEval (reprFloatList [q]) = .ok (.seq [q]) :=
    pyLiteralEval_reprFloatList [q] (by simpa using hq)
  have hmap : mapME (fun k => pyLitIndex (PyLit.seq [q]) k) (List.range 1) =
      .ok [q] := rfl
  have hbt : ¬ (strL "intersection_vertices" = strL "random") := by decide
  rw [scanLine]
  simp [htoks, hv, hc, ha, hjoin, hlit, hmap, hbt, except_bind_ok, except_pure_eq]

theorem scanLine_ao (st : ScanSt) (q : ℚ) (hq : q.den ∣ 10 ^ 40) :
    scanLine (strL "intersection_vertices") 1 st
      (strL "AO times process " ++ reprFloatList [q]) =
      .ok { st with y_ao := st.y_ao ++ [q] } := by
  have hsp : ' ' ∉ reprFloatList [q] := by
    rw [show reprFloatList [q] = '[' :: reprFloatQ q ++ [']'] from rfl]
    intro hm
    rcases List.mem_cons.mp hm with he | h2
    · cases he
    · rcases List.mem_append.mp h2 with h3 | h4
      · exact noSpace_of_signchars _ (reprFloatQ_chars q) h3
      · rcases List.mem_singleton.mp h4 with he
        cases he
  have hrs := pyRstrip_append_reprFloatList (strL "AO times process ") [q]
  have htoks : splitOnCh ' ' (pyRstrip (strL "AO times process " ++ reprFloatList [q])) =
      [strL "AO", strL "times", strL "process", reprFloatList [q]] := by
    rw [hrs, split_three_tokens "AO times process " "AO" "times" "process" _
      (by decide) (by decide) (by decide) (by decide), splitOnCh_single _ _ hsp]
  have hv : lblMatch [strL "AO", strL "times", strL "process", reprFloatList [q]]
      [strL "Variable", strL "value", strL "used"] = .ok false :=
    lblMatch_ne_first _ _ _ _ (by decide)
  have hc : lblMatch [strL "AO", strL "times", strL "process", reprFloatList [q]]
      [strL "CE", strL "times", strL "process"] = .ok false :=
    lblMatch_ne_first _ _ _ _ (by decide)
  have ha : lblMatch [strL "AO", strL "times", strL "process", reprFloatList [q]]
      [strL "AO", strL "times", strL "process"] = .ok true := by
    rw [lblMatch_cons_eq, lblMatch_cons_eq, lblMatch_cons_eq, lblMatch_nil]
  have hjoin : joinOnCh ' ' [reprFloatList [q]] = reprFloatList [q] := rfl
  have hlit : pyLiteralEval (reprFloatList [q]) = .ok (.seq [q]) :=
    pyLiteralEval_reprFloatList [q] (by simpa using hq)
  have hmap : mapME (fun k => pyLitIndex (PyLit.seq [q]) k) (List.range 1) =
      .ok [q] := rfl
  have hbt : ¬ (strL "intersection_vertices" = strL "random") := by decide
  rw [scanLine]
  simp [htoks, hv, hc, ha, hjoin, hlit, hmap, hbt, except_bind_ok, except_pure_eq]

theorem scanLines_cons_ok (bt : Str) (N : ℕ) (l : Str) (ls : List Str)
    (st st1 : ScanSt) (h : scanLine bt N st l = .ok st1) :
    scanLines bt N (l :: ls) st = scanLines bt N ls st1 := by
  rw [scanLines, h]

set_option maxHeartbeats 2000000 in
theorem scanBlock (st : ScanSt) (i : ℤ) (params : List PyVal) (nbr : ℤ) (acc : Acc)
    (cq aq : ℚ) (ls : List Str)
    (hce : acc.counterexample_times_process = [cq])
    (hao : acc.antichain_optimization_times_process = [aq])
    (hcq : cq.den ∣ 10 ^ 40) (haq : aq.den ∣ 10 ^ 40) :
    scanLines (strL "intersection_vertices") 1 (blockLines i params nbr acc ++ ls) st =
      scanLines (strL "intersection_vertices") 1 ls
        { st with x := st.x ++ [i], y_ce := st.y_ce ++ [cq], y_ao := st.y_ao ++ [aq] } := by
  have hbt : (strL "intersection_vertices" : Str) ≠ strL "random" := by decide
  have p2 : ∀ s, scanLine (strL "intersection_vertices") 1 s
      (strL "Parameters " ++ reprPyValList params) = .ok s := fun s =>
    scanLine_skip_lbl1 _ 1 s (strL "Parameters " ++ reprPyValList params)
      "Parameters" (reprPyValList params) hbt
      (by rw [show strL "Parameters " = strL "Parameters" ++ [' '] from by decide]; simp)
      (by decide) (pyRstrip_append_reprPyValList _ _) (by decide) (by decide) (by decide)
  have p3 : ∀ s, scanLine (strL "intersection_vertices") 1 s
      (strL "Number of objectives " ++ reprInt nbr) = .ok s := fun s =>
    scanLine_skip_lbl1 _ 1 s (strL "Number of objectives " ++ reprInt nbr)
      "Number" (strL "of objectives " ++ reprInt nbr) hbt
      (by rw [show strL "Number of objectives " =
          strL "Number" ++ ' ' :: strL "of objectives " from by decide]; simp)
      (by decide) (pyRstrip_append_last _ _ (reprInt_ne_nil _) (reprInt_chars _))
      (by decide) (by decide) (by decide)
  have pZ1 : ∀ s, ∀ l : List ℤ, scanLine (strL "intersection_vertices") 1 s
      (strL "Antichain sizes " ++ reprIntList l) = .ok s := fun s l =>
    scanLine_skip_lbl1 _ 1 s (strL "Antichain sizes " ++ reprIntList l)
      "Antichain" (strL "sizes " ++ reprIntList l) hbt
      (by rw [show strL "Antichain sizes " =
          strL "Antichain" ++ ' ' :: strL "sizes " from by decide]; simp)
      (by decide) (pyRstrip_append_reprIntList _ _) (by decide) (by decide) (by decide)
  have pZ2 : ∀ s, ∀ l : List ℤ, scanLine (strL "intersection_vertices") 1 s
      (strL "Number of payoffs losing " ++ reprIntList l) = .ok s := fun s l =>
    scanLine_skip_lbl1 _ 1 s (strL "Number of payoffs losing " ++ reprIntList l)
      "Number" (strL "of payoffs losing " ++ reprIntList l) hbt
      (by rw [show strL "Number of payoffs losing " =
          strL "Number" ++ ' ' :: strL "of payoffs losing " from by decide]; simp)
      (by decide) (pyRstrip_append_reprIntList _ _) (by decide) (by decide) (by decide)
  have pZ3 : ∀ s, ∀ l : List ℤ, scanLine (strL "intersection_vertices") 1 s
      (strL "Number of payoffs realizable " ++ reprIntList l) = .ok s := fun s l =>
    scanLine_skip_lbl1 _ 1 s (strL "Number of payoffs realizable " ++ reprIntList l)
      "Number" (strL "of payoffs realizable " ++ reprIntList l) hbt
      (by rw [show strL "Number of payoffs realizable " =
          strL "Number" ++ ' ' :: strL "of payoffs realizable " from by decide]; simp)
      (by decide) (pyRstrip_append_reprIntList _ _) (by decide) (by decide) (by decide)
  have pC1 : ∀ s, ∀ l : List ℤ, scanLine (strL "intersection_vertices") 1 s
      (strL "CE antichain sizes " ++ reprIntList l) = .ok s := fun s l =>
    scanLine_skip_lbl2 _ 1 s (strL "CE antichain sizes " ++ reprIntList l)
      "CE" "antichain" (strL "sizes " ++ reprIntList l) hbt
      (by rw [show strL "CE antichain sizes " =
          strL "CE" ++ ' ' :: (strL "antichain" ++ ' ' :: strL "sizes ") from by decide]
          ; simp)
      (by decide) (by decide) (pyRstrip_append_reprIntList _ _) (by decide) (by decide)
  have pC2 : ∀ s, ∀ l : List ℤ, scanLine (strL "intersection_vertices") 1 s
      (strL "CE exists calls " ++ reprIntList l) = .ok s := fun s l =>
    scanLine_skip_lbl2 _ 1 s (strL "CE exists calls " ++ reprIntList l)
      "CE" "exists" (strL "calls " ++ reprIntList l) hbt
      (by rw [show strL "CE exists calls " =
          strL "CE" ++ ' ' :: (strL "exists" ++ ' ' :: strL "calls ") from by decide]
          ; simp)
      (by decide) (by decide) (pyRstrip_append_reprIntList _ _) (by decide) (by decide)
  have pC3 : ∀ s, ∀ l : List ℚ, scanLine (strL "intersection_vertices") 1 s
      (strL "CE exists calls times " ++ reprFloatList l) = .ok s := fun s l =>
    scanLine_skip_lbl2 _ 1 s (strL "CE exists calls times " ++ reprFloatList l)
      "CE" "exists" (strL "calls times " ++ reprFloatList l) hbt
      (by rw [show strL "CE exists calls times " =
          strL "CE" ++ ' ' :: (strL "exists" ++ ' ' :: strL "calls times ") from by decide]
          ; simp)
      (by decide) (by decide) (pyRstrip_append_reprFloatList _ _) (by decide) (by decide)
  have pC4 : ∀ s, ∀ l : List ℤ, scanLine (strL "intersection_vertices") 1 s
      (strL "CE dominated calls " ++ reprIntList l) = .ok s := fun s l =>
    scanLine_skip_lbl2 _ 1 s (strL "CE dominated calls " ++ reprIntList l)
      "CE" "dominated" (strL "calls " ++ reprIntList l) hbt
      (by rw [show strL "CE dominated calls " =
          strL "CE" ++ ' ' :: (strL "dominated" ++ ' ' :: strL "calls ") from by decide]
          ; simp)
      (by decide) (by decide) (pyRstrip_append_reprIntList _ _) (by decide) (by decide)
  have pC5 : ∀ s, ∀ l : List ℚ, scanLine (strL "intersection_vertices") 1 s
      (strL "CE dominated calls times " ++ reprFloatList l) = .ok s := fun s l =>
    scanLine_skip_lbl2 _ 1 s (strL "CE dominated calls times " ++ reprFloatList l)
      "CE" "dominated" (strL "calls times " ++ reprFloatList l) hbt
      (by rw [show strL "CE dominated calls times " = strL "CE" ++ ' ' ::
          (strL "dominated" ++ ' ' :: strL "calls times ") from by decide]; simp)
      (by decide) (by decide) (pyRstrip_append_reprFloatList _ _) (by decide) (by decide)
  have pC6 : ∀ s, ∀ l : List ℤ, scanLine (strL "intersection_vertices") 1 s
      (strL "CE total nbr calls " ++ reprIntList l) = .ok s := fun s l =>
    scanLine_skip_lbl2 _ 1 s (strL "CE total nbr calls " ++ reprIntList l)
      "CE" "total" (strL "nbr calls " ++ reprIntList l) hbt
      (by rw [show strL "CE total nbr calls " =
          strL "CE" ++ ' ' :: (strL "total" ++ ' ' :: strL "nbr calls ") from by decide]
          ; simp)
      (by decide) (by decide) (pyRstrip_append_reprIntList _ _) (by decide) (by decide)
  have pC7 : ∀ s, ∀ l : List ℚ, scanLine (strL "intersection_vertices") 1 s
      (strL "CE times perf " ++ reprFloatList l) = .ok s := fun s l =>
    scanLine_skip_lbl3 _ 1 s (strL "CE times perf " ++ reprFloatList l)
      "CE" "times" "perf" (reprFloatList l) hbt
      (by rw [show strL "CE times perf " =
          strL "CE" ++ ' ' :: (strL "times" ++ ' ' :: (strL "perf" ++ [' '])) from by decide]
          ; simp)
      (by decide) (by decide) (by decide) (pyRstrip_append_reprFloatList _ _)
      (by decide) (by decide)
  have pC8 : ∀ s, ∀ l : List ℚ, scanLine (strL "intersection_vertices") 1 s
      (strL "CE times " ++ reprFloatList l) = .ok s := fun s l =>
    scanLine_skip_times_list _ 1 s (strL "CE times " ++ reprFloatList l) "CE" l hbt
      (by rw [show strL "CE times " = strL "CE" ++ ' ' :: (strL "times" ++ [' '])
          from by decide]; simp)
      (by decide) (pyRstrip_append_reprFloatList _ _) (by decide)
  have pA1 : ∀ s, ∀ l : List ℤ, scanLine (strL "intersection_vertices") 1 s
      (strL "AO antichain sizes " ++ reprIntList l) = .ok s := fun s l =>
    scanLine_skip_lbl2 _ 1 s (strL "AO antichain sizes " ++ reprIntList l)
      "AO" "antichain" (strL "sizes " ++ reprIntList l) hbt
      (by rw [show strL "AO antichain sizes " =
          strL "AO" ++ ' ' :: (strL "antichain" ++ ' ' :: strL "sizes ") from by decide]
          ; simp)
      (by decide) (by decide) (pyRstrip_append_reprIntList _ _) (by decide) (by decide)
  have pA2 : ∀ s, ∀ l : List ℤ, scanLine (strL "intersection_vertices") 1 s
      (strL "AO call1 calls " ++ reprIntList l) = .ok s := fun s l =>
    scanLine_skip_lbl2 _ 1 s (strL "AO call1 calls " ++ reprIntList l)
      "AO" "call1" (strL "calls " ++ reprIntList l) hbt
      (by rw [show strL "AO call1 calls " =
          strL "AO" ++ ' ' :: (strL "call1" ++ ' ' :: strL "calls ") from by decide]
          ; simp)
      (by decide) (by decide) (pyRstrip_append_reprIntList _ _) (by decide) (by decide)
  have pA3 : ∀ s, ∀ l : List ℚ, scanLine (strL "intersection_vertices") 1 s
      (strL "AO call1 calls times " ++ reprFloatList l) = .ok s := fun s l =>
    scanLine_skip_lbl2 _ 1 s (strL "AO call1 calls times " ++ reprFloatList l)
      "AO" "call1" (strL "calls times " ++ reprFloatList l) hbt
      (by rw [show strL "AO call1 calls times " =
          strL "AO" ++ ' ' :: (strL "call1" ++ ' ' :: strL "calls times ") from by decide]
          ; simp)
      (by decide) (by decide) (pyRstrip_append_reprFloatList _ _) (by decide) (by decide)
  have pA4 : ∀ s, ∀ l : List ℤ, scanLine (strL "intersection_vertices") 1 s
      (strL "AO call2 calls " ++ reprIntList l) = .ok s := fun s l =>
    scanLine_skip_lbl2 _ 1 s (strL "AO call2 calls " ++ reprIntList l)
      "AO" "call2" (strL "calls " ++ reprIntList l) hbt
      (by rw [show strL "AO call2 calls " =
          strL "AO" ++ ' ' :: (strL "call2" ++ ' ' :: strL "calls ") from by decide]
          ; simp)
      (by decide) (by decide) (pyRstrip_append_reprIntList _ _) (by decide) (by decide)
  have pA5 : ∀ s, ∀ l : List ℚ, scanLine (strL "intersection_vertices") 1 s
      (strL "AO call2 calls times " ++ reprFloatList l) = .ok s := fun s l =>
    scanLine_skip_lbl2 _ 1 s (strL "AO call2 calls times " ++ reprFloatList l)
      "AO" "call2" (strL "calls times " ++ reprFloatList l) hbt
      (by rw [show strL "AO call2 calls times " =
          strL "AO" ++ ' ' :: (strL "call2" ++ ' ' :: strL "calls times ") from by decide]
          ; simp)
      (by decide) (by decide) (pyRstrip_append_reprFloatList _ _) (by decide) (by decide)
  have pA6 : ∀ s, ∀ l : List ℤ, scanLine (strL "intersection_vertices") 1 s
      (strL "AO total nbr calls " ++ reprIntList l) = .ok s := fun s l =>
    scanLine_skip_lbl2 _ 1 s (strL "AO total nbr calls " ++ reprIntList l)
      "AO" "total" (strL "nbr calls " ++ reprIntList l) hbt
      (by rw [show strL "AO total nbr calls " =
          strL "AO" ++ ' ' :: (strL "total" ++ ' ' :: strL "nbr calls ") from by decide]
          ; simp)
      (by decide) (by decide) (pyRstrip_append_reprIntList _ _) (by decide) (by decide)
  have pA7 : ∀ s, ∀ l : List ℚ, scanLine (strL "intersection_vertices") 1 s
      (strL "AO times perf " ++ reprFloatList l) = .ok s := fun s l =>
    scanLine_skip_lbl3 _ 1 s (strL "AO times perf " ++ reprFloatList l)
      "AO" "times" "perf" (reprFloatList l) hbt
      (by rw [show strL "AO times perf " =
          strL "AO" ++ ' ' :: (strL "times" ++ ' ' :: (strL "perf" ++ [' '])) from by decide]
          ; simp)
      (by decide) (by decide) (by decide) (pyRstrip_append_reprFloatList _ _)
      (by decide) (by decide)
  have pA8 : ∀ s, ∀ l : List ℚ, scanLine (strL "intersection_vertices") 1 s
      (strL "AO times " ++ reprFloatList l) = .ok s := fun s l =>
    scanLine_skip_times_list _ 1 s (strL "AO times " ++ reprFloatList l) "AO" l hbt
      (by rw [show strL "AO times " = strL "AO" ++ ' ' :: (strL "times" ++ [' '])
          from by decide]; simp)
      (by decide) (pyRstrip_append_reprFloatList _ _) (by decide)
  have pM1 : ∀ s, ∀ a b c : ℚ, scanLine (strL "intersection_vertices") 1 s
      (strL "Mean running time CE " ++ reprFmt3 a ++ strL ", " ++ reprFmt3 b ++
        strL ", " ++ reprFmt3 c) = .ok s := fun s a b c =>
    scanLine_skip_lbl1 _ 1 s _ "Mean"
      (strL "running time CE " ++ reprFmt3 a ++ strL ", " ++ reprFmt3 b ++
        strL ", " ++ reprFmt3 c) hbt
      (by rw [show strL "Mean running time CE " =
          strL "Mean" ++ ' ' :: strL "running time CE " from by decide]; simp)
      (by decide) (pyRstrip_append_last _ _ (reprFmt3_ne_nil _) (reprFmt3_chars _))
      (by decide) (by decide) (by decide)
  have pM2 : ∀ s, ∀ a b c : ℚ, scanLine (strL "intersection_vertices") 1 s
      (strL "Mean running time AO " ++ reprFmt3 a ++ strL ", " ++ reprFmt3 b ++
        strL ", " ++ reprFmt3 c) = .ok s := fun s a b c =>
    scanLine_skip_lbl1 _ 1 s _ "Mean"
      (strL "running time AO " ++ reprFmt3 a ++ strL ", " ++ reprFmt3 b ++
        strL ", " ++ reprFmt3 c) hbt
      (by rw [show strL "Mean running time AO " =
          strL "Mean" ++ ' ' :: strL "running time AO " from by decide]; simp)
      (by decide) (pyRstrip_append_last _ _ (reprFmt3_ne_nil _) (reprFmt3_chars _))
      (by decide) (by decide) (by decide)
  have pM3 : ∀ s, ∀ (w : String) (r : Str) (q : ℚ),
      strL w = strL "Mean" ++ ' ' :: r →
      scanLine (strL "intersection_vertices") 1 s (strL w ++ reprFmt3 q) = .ok s :=
    fun s w r q hw =>
    scanLine_skip_lbl1 _ 1 s (strL w ++ reprFmt3 q) "Mean" (r ++ reprFmt3 q) hbt
      (by rw [hw]; simp) (by decide)
      (pyRstrip_append_last _ _ (reprFmt3_ne_nil _) (reprFmt3_chars _))
      (by decide) (by decide) (by decide)
  have pM4 : ∀ s, ∀ (w1 : String) (w : String) (r : Str) (q : ℚ),
      strL w1 = strL "CE" ∨ strL w1 = strL "AO" →
      strL w = strL w1 ++ ' ' :: (strL "mean" ++ ' ' :: r) →
      scanLine (strL "intersection_vertices") 1 s (strL w ++ reprFmt3 q) = .ok s :=
    fun s w1 w r q hw1 hw =>
    scanLine_skip_lbl2 _ 1 s (strL w ++ reprFmt3 q) w1 "mean" (r ++ reprFmt3 q) hbt
      (by rw [hw]; simp)
      (by rcases hw1 with h | h <;> rw [h] <;> decide) (by decide)
      (pyRstrip_append_last _ _ (reprFmt3_ne_nil _) (reprFmt3_chars _))
      (by rcases hw1 with h | h <;> rw [h] <;> decide) (by decide)
  rw [blockLines, hce, hao]
  simp only [List.cons_append, List.nil_append]
  rw [scanLines_cons_ok _ _ _ _ _ _ (scanLine_var st i),
    scanLines_cons_ok _ _ _ _ _ _ (p2 _),
    scanLines_cons_ok _ _ _ _ _ _ (p3 _),
    scanLines_cons_ok _ _ _ _ _ _ (pZ1 _ _),
    scanLines_cons_ok _ _ _ _ _ _ (pZ2 _ _),
    scanLines_cons_ok _ _ _ _ _ _ (pZ3 _ _),
    scanLines_cons_ok _ _ _ _ _ _ (pC1 _ _),
    scanLines_cons_ok _ _ _ _ _ _ (pC2 _ _),
    scanLines_cons_ok _ _ _ _ _ _ (pC3 _ _),
    scanLines_cons_ok _ _ _ _ _ _ (pC4 _ _),
    scanLines_cons_ok _ _ _ _ _ _ (pC5 _ _),
    scanLines_cons_ok _ _ _ _ _ _ (pC6 _ _),
    scanLines_cons_ok _ _ _ _ _ _ (scanLine_ce _ cq hcq),
    scanLines_cons_ok _ _ _ _ _ _ (pC7 _ _),
    scanLines_cons_ok _ _ _ _ _ _ (pC8 _ _),
    scanLines_cons_ok _ _ _ _ _ _ (pA1 _ _),
    scanLines_cons_ok _ _ _ _ _ _ (pA2 _ _),
    scanLines_cons_ok _ _ _ _ _ _ (pA3 _ _),
    scanLines_cons_ok _ _ _ _ _ _ (pA4 _ _),
    scanLines_cons_ok _ _ _ _ _ _ (pA5 _ _),
    scanLines_cons_ok _ _ _ _ _ _ (pA6 _ _),
    scanLines_cons_ok _ _ _ _ _ _ (scanLine_ao _ aq haq),
    scanLines_cons_ok _ _ _ _ _ _ (pA7 _ _),
    scanLines_cons_ok _ _ _ _ _ _ (pA8 _ _),
    scanLines_cons_ok _ _ _ _ _ _ (pM1 _ _ _ _),
    scanLines_cons_ok _ _ _ _ _ _ (pM2 _ _ _ _),
    scanLines_cons_ok _ _ _ _ _ _
      (pM3 _ "Mean antichain size " (strL "antichain size ") _ (by decide)),
    scanLines_cons_ok _ _ _ _ _ _
      (pM3 _ "Mean number losing payoffs " (strL "number losing payoffs ") _ (by decide)),
    scanLines_cons_ok _ _ _ _ _ _
      (pM3 _ "Mean number realizable payoffs " (strL "number realizable payoffs ") _
        (by decide)),
    scanLines_cons_ok _ _ _ _ _ _
      (pM4 _ "CE" "CE mean antichain size " (strL "antichain size ") _
        (Or.inl rfl) (by decide)),
    scanLines_cons_ok _ _ _ _ _ _
      (pM4 _ "CE" "CE mean nbr exists calls " (strL "nbr exists calls ") _
        (Or.inl rfl) (by decide)),
    scanLines_cons_ok _ _ _ _ _ _
      (pM4 _ "CE" "CE mean exists time " (strL "exists time ") _
        (Or.inl rfl) (by decide)),
    scanLines_cons_ok _ _ _ _ _ _
      (pM4 _ "CE" "CE mean nbr dominated calls " (strL "nbr dominated calls ") _
        (Or.inl rfl) (by decide)),
    scanLines_cons_ok _ _ _ _ _ _
      (pM4 _ "CE" "CE mean dominated time " (strL "dominated time ") _
        (Or.inl rfl) (by decide)),
    scanLines_cons_ok _ _ _ _ _ _
      (pM4 _ "CE" "CE mean total nbr calls " (strL "total nbr calls ") _
        (Or.inl rfl) (by decide)),
    scanLines_cons_ok _ _ _ _ _ _
      (pM4 _ "AO" "AO mean antichain size " (strL "antichain size ") _
        (Or.inr rfl) (by decide)),
    scanLines_cons_ok _ _ _ _ _ _
      (pM4 _ "AO" "AO mean nbr call1 calls " (strL "nbr call1 calls ") _
        (Or.inr rfl) (by decide)),
    scanLines_cons_ok _ _ _ _ _ _
      (pM4 _ "AO" "AO mean call1 time " (strL "call1 time ") _
        (Or.inr rfl) (by decide)),
    scanLines_cons_ok _ _ _ _ _ _
      (pM4 _ "AO" "AO mean nbr call2 calls " (strL "nbr call2 calls ") _
        (Or.inr rfl) (by decide)),
    scanLines_cons_ok _ _ _ _ _ _
      (pM4 _ "AO" "AO mean call2 time " (strL "call2 time ") _
        (Or.inr rfl) (by decide)),
    scanLines_cons_ok _ _ _ _ _ _
      (pM4 _ "AO" "AO mean total nbr calls " (strL "total nbr calls ") _
        (Or.inr rfl) (by decide)),
    scanLines_cons_ok _ _ _ _ _ _ (scanLine_blank _ _ _ hbt),
    scanLines_cons_ok _ _ _ _ _ _ (scanLine_blank _ _ _ hbt),
    scanLines_cons_ok _ _ _ _ _ _ (scanLine_blank _ _ _ hbt)]

set_option maxHeartbeats 1000000 in
theorem noNL_blockLines (i : ℤ) (params : List PyVal) (nbr : ℤ) (acc : Acc) :
    ∀ l ∈ blockLines i params nbr acc, '\n' ∉ l := by
  intro l hl
  rw [blockLines] at hl
  simp only [List.mem_cons, List.not_mem_nil, or_false] at hl
  rcases hl with rfl|rfl|rfl|rfl|rfl|rfl|rfl|rfl|rfl|rfl|rfl|rfl|rfl|rfl|rfl|rfl|rfl|
    rfl|rfl|rfl|rfl|rfl|rfl|rfl|rfl|rfl|rfl|rfl|rfl|rfl|rfl|rfl|rfl|rfl|rfl|rfl|rfl|
    rfl|rfl|rfl|rfl|rfl|rfl|rfl
  all_goals first
    | exact noNL_append _ _ (by decide) (noNL_reprInt _)
    | exact noNL_append _ _ (by decide) (noNL_reprIntList _)
    | exact noNL_append _ _ (by decide) (noNL_reprFloatList _)
    | exact noNL_append _ _ (by decide) (noNL_reprPyValList _)
    | exact noNL_append _ _ (by decide) (noNL_reprFmt3 _)
    | exact noNL_append _ _ (noNL_append _ _ (noNL_append _ _ (noNL_append _ _
        (noNL_append _ _ (by decide) (noNL_reprFmt3 _)) (by decide))
        (noNL_reprFmt3 _)) (by decide)) (noNL_reprFmt3 _)
    | simp

theorem runValue_iv (env : Env) (params : List PyVal) (gp : PyVal) (i : ℤ)
    (nb : Option ℤ)
    (hgp : genPos (strL "intersection_vertices") params = .ok gp)
    (hg : TrialGood env gp i 1) :
    runValue env (strL "intersection_vertices") params 1 i nb =
      (unlines (blockLines i params (env.nbrObjectives i 1)
        (appendTimesAO (env.aoElapsed i 1) (appendTimesCE (env.ceElapsed i 1)
          (appendStats5 (env.stats i 1) (appendStats4 (env.stats i 1)
            (appendStats3 (env.stats i 1) (appendStats2 (env.stats i 1)
              (appendStats1 (env.stats i 1) emptyAcc)))))))),
       some (env.nbrObjectives i 1), none) := by
  have h1 : runTrials env (strL "intersection_vertices") params i 1 1 emptyAcc nb =
      (appendTimesAO (env.aoElapsed i 1) (appendTimesCE (env.ceElapsed i 1)
        (appendStats5 (env.stats i 1) (appendStats4 (env.stats i 1)
          (appendStats3 (env.stats i 1) (appendStats2 (env.stats i 1)
            (appendStats1 (env.stats i 1) emptyAcc)))))),
       some (env.nbrObjectives i 1), none) := by
    rw [show (1 : ℕ) = 0 + 1 from rfl]
    rw [runTrials, runTrial_ok env _ params gp i (0 + 1) emptyAcc nb hgp (by simpa using hg)]
    rfl
  have hlen : accLens (appendTimesAO (env.aoElapsed i 1) (appendTimesCE (env.ceElapsed i 1)
      (appendStats5 (env.stats i 1) (appendStats4 (env.stats i 1)
        (appendStats3 (env.stats i 1) (appendStats2 (env.stats i 1)
          (appendStats1 (env.stats i 1) emptyAcc))))))) 1 := by
    simpa using trialAppend_lengths (env.stats i 1) (env.ceElapsed i 1)
      (env.aoElapsed i 1) emptyAcc 0 accLens_empty
  rw [runValue, h1]
  simp only [writeBlock_lines i params (env.nbrObjectives i 1) _ 1 hlen le_rfl]

/-- C9: the descending sweep `range(3, 1, -1)` enumerates exactly the values `[3, 2]`
in that order; running the `intersection_vertices` sweep over it with one trial per
value (for any environment whose two trials succeed) and feeding the report to the
parser yields a dataset of the header line followed by exactly two data rows whose
x-column values are `3` and `2`, in that order. -/
theorem claim_C9 (env : Env) (params : List PyVal) (gp : PyVal)
    (hgp : genPos (strL "intersection_vertices") params = .ok gp)
    (hg3 : TrialGood env gp 3 1) (hg2 : TrialGood env gp 2 1) :
    pyRange 3 1 (-1) = [3, 2] ∧
    (runBenchmark (strL "intersection_vertices") params 1 3 1 (-1) env).2 = none ∧
    parseResults
        (fileLines (runBenchmark (strL "intersection_vertices") params 1 3 1 (-1) env).1)
        (strL "intersection_vertices") 1 =
      ([strL "nbr_vertices CE_time AO_time",
        reprInt 3 ++ ' ' :: reprFloatQ (fmt3 (env.ceElapsed 3 1).1) ++
          ' ' :: reprFloatQ (fmt3 (env.aoElapsed 3 1).1),
        reprInt 2 ++ ' ' :: reprFloatQ (fmt3 (env.ceElapsed 2 1).1) ++
          ' ' :: reprFloatQ (fmt3 (env.aoElapsed 2 1).1)], none) := by
  have hpr : pyRange 3 1 (-1) = [3, 2] := by decide
  have hrb : runBenchmark (strL "intersection_vertices") params 1 3 1 (-1) env =
      (unlines (blockLines 3 params (env.nbrObjectives 3 1)
        (appendTimesAO (env.aoElapsed 3 1) (appendTimesCE (env.ceElapsed 3 1)
          (appendStats5 (env.stats 3 1) (appendStats4 (env.stats 3 1)
            (appendStats3 (env.stats 3 1) (appendStats2 (env.stats 3 1)
              (appendStats1 (env.stats 3 1) emptyAcc))))))) ++
        blockLines 2 params (env.nbrObjectives 2 1)
        (appendTimesAO (env.aoElapsed 2 1) (appendTimesCE (env.ceElapsed 2 1)
          (appendStats5 (env.stats 2 1) (appendStats4 (env.stats 2 1)
            (appendStats3 (env.stats 2 1) (appendStats2 (env.stats 2 1)
              (appendStats1 (env.stats 2 1) emptyAcc)))))))), none) := by
    rw [runBenchmark, if_neg (by decide), hpr]
    simp only [runBenchmarkAux,
      runValue_iv env params gp 3 none hgp hg3,
      runValue_iv env params gp 2 (some (env.nbrObjectives 3 1)) hgp hg2,
      List.append_nil]
    rw [unlines_append]
  have hdd : ∀ q : ℚ, (fmt3 q).den ∣ 10 ^ 40 := fun q => den_dvd_40 _ (fmt3_mul_den q)
  have hfl : fileLines (runBenchmark (strL "intersection_vertices") params 1 3 1 (-1)
      env).1 =
      blockLines 3 params (env.nbrObjectives 3 1)
        (appendTimesAO (env.aoElapsed 3 1) (appendTimesCE (env.ceElapsed 3 1)
          (appendStats5 (env.stats 3 1) (appendStats4 (env.stats 3 1)
            (appendStats3 (env.stats 3 1) (appendStats2 (env.stats 3 1)
              (appendStats1 (env.stats 3 1) emptyAcc))))))) ++
      blockLines 2 params (env.nbrObjectives 2 1)
        (appendTimesAO (env.aoElapsed 2 1) (appendTimesCE (env.ceElapsed 2 1)
          (appendStats5 (env.stats 2 1) (appendStats4 (env.stats 2 1)
            (appendStats3 (env.stats 2 1) (appendStats2 (env.stats 2 1)
              (appendStats1 (env.stats 2 1) emptyAcc))))))) := by
    rw [hrb]
    refine fileLines_unlines _ (by rw [blockLines]; simp) ?_
    intro l hl
    rcases List.mem_append.mp hl with h | h
    · exact noNL_blockLines _ _ _ _ l h
    · exact noNL_blockLines _ _ _ _ l h
  have hfields : ∀ (stt : Stats) (tce tao : ℚ × ℚ × ℚ),
      (appendTimesAO tao (appendTimesCE tce (appendStats5 stt (appendStats4 stt
        (appendStats3 stt (appendStats2 stt
          (appendStats1 stt emptyAcc))))))).counterexample_times_process =
        [fmt3 tce.1] ∧
      (appendTimesAO tao (appendTimesCE tce (appendStats5 stt (appendStats4 stt
        (appendStats3 stt (appendStats2 stt
          (appendStats1 stt emptyAcc))))))).antichain_optimization_times_process =
        [fmt3 tao.1] := by
    intro stt tce tao
    constructor <;>
      simp [appendStats1, appendStats2, appendStats3, appendStats4, appendStats5,
        appendTimesCE, appendTimesAO, emptyAcc]
  refine ⟨hpr, by rw [hrb], ?_⟩
  rw [hfl, parseResults]
  rw [scanBlock {} 3 params (env.nbrObjectives 3 1) _ (fmt3 (env.ceElapsed 3 1).1)
    (fmt3 (env.aoElapsed 3 1).1) _ (hfields _ _ _).1 (hfields _ _ _).2 (hdd _) (hdd _)]
  rw [show blockLines 2 params (env.nbrObjectives 2 1)
      (appendTimesAO (env.aoElapsed 2 1) (appendTimesCE (env.ceElapsed 2 1)
        (appendStats5 (env.stats 2 1) (appendStats4 (env.stats 2 1)
          (appendStats3 (env.stats 2 1) (appendStats2 (env.stats 2 1)
            (appendStats1 (env.stats 2 1) emptyAcc))))))) =
    blockLines 2 params (env.nbrObjectives 2 1)
      (appendTimesAO (env.aoElapsed 2 1) (appendTimesCE (env.ceElapsed 2 1)
        (appendStats5 (env.stats 2 1) (appendStats4 (env.stats 2 1)
          (appendStats3 (env.stats 2 1) (appendStats2 (env.stats 2 1)
            (appendStats1 (env.stats 2 1) emptyAcc))))))) ++ [] from
    (List.append_nil _).symm]
  rw [scanBlock _ 2 params (env.nbrObjectives 2 1) _ (fmt3 (env.ceElapsed 2 1).1)
    (fmt3 (env.aoElapsed 2 1).1) _ (hfields _ _ _).1 (hfields _ _ _).2 (hdd _) (hdd _)]
  rfl

/-- Witness for C9 at a concrete well-behaved environment. -/
theorem claim_C9_witness :
    pyRange 3 1 (-1) = [3, 2] ∧
    (runBenchmark (strL "intersection_vertices") [PyVal.vBool true] 1 3 1 (-1)
      envA).2 = none ∧
    parseResults
        (fileLines (runBenchmark (strL "intersection_vertices") [PyVal.vBool true]
          1 3 1 (-1) envA).1)
        (strL "intersection_vertices") 1 =
      ([strL "nbr_vertices CE_time AO_time",
        reprInt 3 ++ ' ' :: reprFloatQ (fmt3 (envA.ceElapsed 3 1).1) ++
          ' ' :: reprFloatQ (fmt3 (envA.aoElapsed 3 1).1),
        reprInt 2 ++ ' ' :: reprFloatQ (fmt3 (envA.ceElapsed 2 1).1) ++
          ' ' :: reprFloatQ (fmt3 (envA.aoElapsed 2 1).1)], none) :=
  claim_C9 envA [PyVal.vBool true] (PyVal.vBool true) (by decide)
    (trialGoodA 3 1) (trialGoodA 2 1)

end RunBenchmarks
